import Mathlib

/-!
Verification of the finboard core against its specification.

The definitions below are a shallow embedding of the TypeScript source:
JSON values are modelled by the inductive `Json`, JavaScript `undefined`
by `Option.none`, numbers by exact rationals, and thrown exceptions by
`Except`.  Stateful classes (the adapter factory, the realtime connection
manager) are modelled by explicit state records and executable transition
functions.  Network and platform effects (`fetch`, `Date.parse`) are
modelled as explicit inputs / oracle parameters, so every definition is
executable and every property can be checked on concrete inputs.
-/

/-- A JSON-like tree value.  Numbers are exact rationals (the sources only
compare and rebuild them; no float rounding is exercised by the verified
properties).  `nan` is the IEEE not-a-number produced by `parseFloat`,
`parseInt` and arithmetic on non-numeric operands; `JSON.parse` itself
never yields it. -/
inductive Json where
  | null : Json
  | bool (b : Bool) : Json
  | num (q : ℚ) : Json
  | nan : Json
  | str (s : String) : Json
  | arr (items : List Json) : Json
  | obj (entries : List (String × Json)) : Json

/-- Boolean list-prefixOf test (executable). -/
def isPrefixOfB : List Char → List Char → Bool
  | [], _ => true
  | _ :: _, [] => false
  | a :: as, b :: bs => a == b && isPrefixOfB as bs

/-- Boolean list-infix test (executable). -/
def isInfixOfB (p : List Char) : List Char → Bool
  | [] => p.isEmpty
  | l@(_ :: rest) => isPrefixOfB p l || isInfixOfB p rest

/-- JavaScript string `includes` (substring test). -/
def jsIncludes (s pat : String) : Bool :=
  isInfixOfB pat.toList s.toList

/-- String `startsWith`, reimplemented over character lists so that it
reduces definitionally. -/
def startsWithB (s p : String) : Bool :=
  isPrefixOfB p.toList s.toList

/-- String `endsWith`, reimplemented over character lists. -/
def endsWithB (s suf : String) : Bool :=
  isPrefixOfB suf.toList.reverse s.toList.reverse

/-- Drop the last `n` characters of a string. -/
def dropRightStr (s : String) (n : Nat) : String :=
  String.mk (s.toList.take (s.toList.length - n))

/-- Lower-case a string (ASCII, as used by the sources). -/
def lowerStr (s : String) : String :=
  String.mk (s.toList.map Char.toLower)

/-- Upper-case a string (ASCII, as used by the sources). -/
def upperStr (s : String) : String :=
  String.mk (s.toList.map Char.toUpper)

/-- Decimal digits to a natural number. -/
def digitsToNat (ds : List Char) : Nat :=
  ds.foldl (fun acc c => acc * 10 + (c.toNat - 48)) 0

/-- Accumulating loop for `jsSplitDot`. -/
def splitDotGo : List Char → List Char → List String
  | acc, [] => [String.mk acc.reverse]
  | acc, ch :: rest =>
    if ch == '.' then String.mk acc.reverse :: splitDotGo [] rest
    else splitDotGo (ch :: acc) rest

/-- JavaScript `path.split(".")` (on the empty string it yields `[""]`). -/
def jsSplitDot (s : String) : List String :=
  splitDotGo [] s.toList

/-- A string that JavaScript treats as a canonical array index
("0", "1", ..., no leading zeros). -/
def canonicalIndex? (s : String) : Option Nat :=
  if s ≠ "" ∧ s.toList.all Char.isDigit ∧ (s = "0" ∨ ¬ startsWithB s "0") then
    some (digitsToNat s.toList)
  else none

/-- JavaScript property access `c[key]` with a string key, on JSON data.
Objects look the key up; arrays expose `length` and canonical indices;
strings expose `length` and their characters; other primitives have no
own properties (access yields `undefined`, modelled as `none`). -/
def jsGetField (c : Json) (key : String) : Option Json :=
  match c with
  | Json.obj kvs => kvs.lookup key
  | Json.arr xs =>
      if key = "length" then some (Json.num xs.length) else
      match canonicalIndex? key with
      | some i => xs.get? i
      | none => none
  | Json.str s =>
      if key = "length" then some (Json.num s.length) else
      match canonicalIndex? key with
      | some i => (s.toList.get? i).map (fun ch => Json.str (String.mk [ch]))
      | none => none
  | _ => none

/-- JavaScript property access `v[i]` with a numeric key (the key is
converted to its canonical string form). -/
def jsIndex (v : Json) (i : Nat) : Option Json :=
  match v with
  | Json.arr xs => xs.get? i
  | Json.obj kvs => kvs.lookup (toString i)
  | Json.str s => (s.toList.get? i).map (fun ch => Json.str (String.mk [ch]))
  | _ => none

/-- JavaScript truthiness of a possibly-`undefined` JSON value. -/
def jsTruthy : Option Json → Bool
  | none => false
  | some Json.null => false
  | some Json.nan => false
  | some (Json.bool b) => b
  | some (Json.num q) => decide (q ≠ 0)
  | some (Json.str s) => decide (s ≠ "")
  | some (Json.arr _) => true
  | some (Json.obj _) => true

namespace CustomApiAdapter

/-- Segment decoding used by `extractValue`
(`src/lib/adapters/customAdapter/index.ts`): decodes one
path segment of the form `key[digits]` exactly as the regex
`^(.+)\[(\d+)\]$` does (greedy first group: the bracketed index is the
final all-digit bracket group, and the part before it is non-empty). -/
def parseArraySegment (key : String) : Option (String × Nat) :=
  if endsWithB key "]" then
    let body := dropRightStr key 1
    let ds := (body.toList.reverse.takeWhile Char.isDigit).reverse
    let rest := dropRightStr body ds.length
    if ds.isEmpty then none
    else if endsWithB rest "[" then
      let arrayKey := dropRightStr rest 1
      if arrayKey.isEmpty then none
      else some (arrayKey, digitsToNat ds)
    else none
  else none

/-- One step of the `reduce` callback in `extractValue`.  `current` is the
accumulated value (`none` = JavaScript `undefined`).  In the bracketed
branch the source reads `current[arrayKey]?.[parseInt(index)]`; the plain
branch reads `current?.[key]`.  `Except.error` models a thrown
`TypeError` (property access on `undefined`/`null` without `?.`). -/
def extractStep (current : Option Json) (key : String) : Except Unit (Option Json) :=
  match parseArraySegment key with
  | some (arrayKey, idx) =>
    match current with
    | none => Except.error ()
    | some Json.null => Except.error ()
    | some c =>
      match jsGetField c arrayKey with
      | none => Except.ok none
      | some Json.null => Except.ok none
      | some v => Except.ok (jsIndex v idx)
  | none =>
    match current with
    | none => Except.ok none
    | some Json.null => Except.ok none
    | some c => Except.ok (jsGetField c key)

/-- The `reduce` loop of `extractValue` over the dot-separated segments. -/
def extractGo : Option Json → List String → Except Unit (Option Json)
  | cur, [] => Except.ok cur
  | cur, k :: ks =>
    match extractStep cur k with
    | Except.error e => Except.error e
    | Except.ok nxt => extractGo nxt ks

/-- Collapse the result as the surrounding `try/catch` does: a thrown
error is caught and becomes `undefined`. -/
def collapse : Except Unit (Option Json) → Option Json
  | Except.ok v => v
  | Except.error _ => none

/-- Model of `CustomApiAdapter.extractValue(obj, path)`: split the path on `"."`
and walk the tree; any exception is caught and becomes `undefined`. -/
def extractValue (obj : Json) (path : String) : Option Json :=
  collapse (extractGo (some obj) (jsSplitDot path))

end CustomApiAdapter

/-! ## Field mappings and response validation (`customAdapter/index.ts`) -/

/-- The `dataType` of a field mapping / detected field
(`@/types/custom-api.ts`). -/
inductive FieldType where
  | string : FieldType
  | number : FieldType
  | date : FieldType
  | boolean : FieldType
  | array : FieldType
  | object : FieldType
deriving DecidableEq

/-- The `transform` enumeration of a field mapping. -/
inductive TransformKind where
  | none : TransformKind
  | uppercase : TransformKind
  | lowercase : TransformKind
  | parse_float : TransformKind
  | parse_date : TransformKind
  | multiply_100 : TransformKind
  | divide_100 : TransformKind
deriving DecidableEq

/-- Model of `ApiFieldMapping` (`@/types/custom-api.ts`).  `required` is an optional
boolean in the source and is only ever used for its truthiness, so the
absent case is collapsed into `false`. -/
structure ApiFieldMapping where
  sourceField : String
  targetField : String
  dataType : FieldType
  transform : TransformKind
  defaultValue : Option Json
  required : Bool

/-- Model of `ValidationError` (`@/types/custom-api.ts`). -/
structure ValidationError where
  field : String
  message : String
  severity : String
  code : String

/-- A single-quote character, kept out of string literals. -/
def quoteChar : String := String.mk [Char.ofNat 39]

namespace CustomApiAdapter

/-- The error pushed by `validateResponse` for a missing required field. -/
def missingFieldError (sourceField : String) : ValidationError :=
  { field := sourceField
    message := "Required field " ++ quoteChar ++ sourceField ++ quoteChar ++ " is missing"
    severity := "error"
    code := "MISSING_REQUIRED_FIELD" }

/-- The JavaScript test `value === undefined || value === null` applied to
an extracted value. -/
def isMissingValue : Option Json → Bool
  | none => true
  | some Json.null => true
  | some _ => false

/-- Model of `CustomApiAdapter.validateResponse(response, mappings)`: loop over the
required mappings, extract each source field and collect one error per
missing value.  (`extractValue` catches internally and never throws, so
the `FIELD_ACCESS_ERROR` catch branch of the source is unreachable.) -/
def validateResponse (response : Json) (mappings : List ApiFieldMapping) :
    List ValidationError :=
  (mappings.filter (fun m => m.required)).foldl
    (fun errors m =>
      if isMissingValue (extractValue response m.sourceField) then
        errors ++ [missingFieldError m.sourceField]
      else errors)
    []

end CustomApiAdapter

/-! ## Adapter registry and factory (`src/lib/adapters/registry.ts`) -/

namespace ApiAdapterFactory

/-- The state of `ApiAdapterFactory`: the `instances` cache is a JavaScript
`Map` (insertion-ordered association list) from cache key to the adapter
instance, and adapter instances are identified by the order in which
`ApiAdapterRegistry.createAdapter` built them (`nextId` is the next fresh
identity). -/
structure FactoryState where
  instances : List (String × Nat)
  nextId : Nat
deriving DecidableEq

/-- The empty cache. -/
def initialState : FactoryState := { instances := [], nextId := 0 }

/-- Model of `ApiAdapterFactory.getAdapter(config)`.  `registered` is the set of
provider ids currently registered in `ApiAdapterRegistry` (the three
built-ins plus any `custom-<id>` providers registered by the dashboard);
`providerId`/`configId` are the two components of the user configuration
used by the method.  Returns the resolved adapter instance (or `none`
when the provider is unknown) together with the updated cache. -/
def getAdapter (registered : List String) (providerId configId : String)
    (s : FactoryState) : Option Nat × FactoryState :=
  let cacheKey := providerId ++ "-" ++ configId
  match s.instances.lookup cacheKey with
  | some inst => (some inst, s)
  | none =>
    if registered.contains providerId then
      (some s.nextId,
       { instances := s.instances ++ [(cacheKey, s.nextId)],
         nextId := s.nextId + 1 })
    else (none, s)

/-- The key scan of `clearCache(configId)`: iterate the cache keys in
insertion order, delete the first one that ends with `"-" + configId`,
then `break`. -/
def deleteFirstMatching : List (String × Nat) → String → List (String × Nat)
  | [], _ => []
  | kv :: rest, sfx =>
    if endsWithB kv.1 sfx then rest else kv :: deleteFirstMatching rest sfx

/-- Model of `ApiAdapterFactory.clearCache(configId?)`. -/
def clearCache (configId : Option String) (s : FactoryState) : FactoryState :=
  match configId with
  | some cid => { s with instances := deleteFirstMatching s.instances ("-" ++ cid) }
  | none => { s with instances := [] }

/-- Well-formedness of a factory state: cached instance identities are
pairwise distinct and below the fresh counter.  Holds for every state the
program can reach (see `getAdapter_preserves_wf`). -/
def WfState (s : FactoryState) : Prop :=
  (s.instances.map Prod.snd).Nodup ∧ ∀ v ∈ s.instances.map Prod.snd, v < s.nextId

end ApiAdapterFactory

/-! ## JavaScript number coercion helpers -/

/-- Exact rational multiplication, implemented over `Rat.divInt` so that it
reduces in the kernel. -/
def ratMul (a b : ℚ) : ℚ := Rat.divInt (a.num * b.num) (a.den * b.den)

/-- Exact rational subtraction (kernel-reducible). -/
def ratSub (a b : ℚ) : ℚ := Rat.divInt (a.num * b.den - b.num * a.den) (a.den * b.den)

/-- Exact rational division (kernel-reducible); division by zero is never
exercised where this is used. -/
def ratDiv (a b : ℚ) : ℚ := Rat.divInt (a.num * b.den) (a.den * b.num)

/-- Absolute value on ℚ (kernel-reducible). -/
def ratAbs (q : ℚ) : ℚ := if q.num < 0 then Rat.divInt (-q.num) q.den else q

/-- Powers of ten as integers. -/
def pow10 : Nat → Int
  | 0 => 1
  | n + 1 => 10 * pow10 n

/-- Take leading decimal digits. -/
def takeDigits (l : List Char) : List Char × List Char :=
  (l.takeWhile Char.isDigit, l.dropWhile Char.isDigit)

/-- Parse a leading decimal number (optional sign, integer part, optional
fraction), as JavaScript `parseFloat` does on the strings the providers
send.  (Exponent forms are not modelled; the sources never receive them
on the verified paths.)  Returns `none` for NaN. -/
def parseLeadingFloat (s : String) : Option ℚ :=
  let l := s.toList.dropWhile (fun c => c == ' ')
  let (sign, l) : Int × List Char :=
    match l with
    | '-' :: r => (-1, r)
    | '+' :: r => (1, r)
    | _ => (1, l)
  let (ip, l) := takeDigits l
  match l with
  | '.' :: r =>
    let (fp, _) := takeDigits r
    if ip.isEmpty ∧ fp.isEmpty then none
    else some (Rat.divInt (sign * (digitsToNat ip * pow10 fp.length + digitsToNat fp))
                 (pow10 fp.length))
  | _ => if ip.isEmpty then none else some (Rat.divInt (sign * digitsToNat ip) 1)

/-- Parse a leading integer, as JavaScript `parseInt` does.  Returns `none`
for NaN. -/
def parseLeadingInt (s : String) : Option ℚ :=
  let l := s.toList.dropWhile (fun c => c == ' ')
  let (sign, l) : Int × List Char :=
    match l with
    | '-' :: r => (-1, r)
    | '+' :: r => (1, r)
    | _ => (1, l)
  let (ip, _) := takeDigits l
  if ip.isEmpty then none else some (Rat.divInt (sign * digitsToNat ip) 1)

/-- JavaScript `parseFloat(x)` on a possibly-`undefined` JSON value:
`undefined`, non-numeric strings, booleans, `null` and composite values
all give NaN; numbers pass through. -/
def jsParseFloat (v : Option Json) : Json :=
  match v with
  | some (Json.num q) => Json.num q
  | some (Json.str s) =>
    match parseLeadingFloat s with
    | some q => Json.num q
    | none => Json.nan
  | _ => Json.nan

/-- JavaScript `parseInt(x)` on a possibly-`undefined` JSON value.  On a
number it truncates toward zero (via the decimal string round-trip). -/
def jsParseInt (v : Option Json) : Json :=
  match v with
  | some (Json.num q) => Json.num (Rat.divInt (Int.tdiv q.num q.den) 1)
  | some (Json.str s) =>
    match parseLeadingInt s with
    | some q => Json.num q
    | none => Json.nan
  | _ => Json.nan

/-- Whether a character list is exactly an optionally-signed decimal
number (used for the whole-string numeric coercion of `Number(s)`). -/
def isFullDecimal (l : List Char) : Bool :=
  let l1 := match l with
    | c :: r => if c == '-' || c == '+' then r else l
    | [] => l
  let (ip, l2) := takeDigits l1
  match l2 with
  | [] => !ip.isEmpty
  | '.' :: r =>
    let (fp, l3) := takeDigits r
    l3.isEmpty && !(ip.isEmpty && fp.isEmpty)
  | _ => false

/-- Coerce a possibly-`undefined` JSON value to a JavaScript number
(`none` result = NaN), as done implicitly by arithmetic operators.
Composite values are approximated as NaN (single-element arrays, which
would coerce through their content, do not occur on the verified paths). -/
def toNum (v : Option Json) : Option ℚ :=
  match v with
  | none => none
  | some Json.null => some 0
  | some Json.nan => none
  | some (Json.bool b) => some (if b then 1 else 0)
  | some (Json.num q) => some q
  | some (Json.str s) =>
    let t := (s.toList.dropWhile (fun c => c == ' ')).reverse.dropWhile (fun c => c == ' ') |>.reverse
    if t.isEmpty then some 0
    else if isFullDecimal t then parseLeadingFloat (String.mk t)
    else none
  | some (Json.arr _) => none
  | some (Json.obj _) => none

/-- Wrap an optional rational back into a JavaScript number value. -/
def numJson : Option ℚ → Json
  | some q => Json.num q
  | none => Json.nan

/-! ## Adapter result types (`@/types/api.ts`) -/

/-- Error codes carried by a thrown `ApiError`. -/
inductive ApiErrorCode where
  | INVALID_SYMBOL : ApiErrorCode
  | RATE_LIMIT_EXCEEDED : ApiErrorCode
  | NO_DATA : ApiErrorCode
  | HTTP_ERROR : ApiErrorCode
  | API_ERROR : ApiErrorCode
  | INVALID_RESPONSE : ApiErrorCode
  | AUTHENTICATION_FAILED : ApiErrorCode
deriving DecidableEq

/-- Model of a thrown `ApiError` (message, code, optional HTTP status). -/
structure ApiError where
  message : String
  code : ApiErrorCode
  status : Option Nat := none
deriving DecidableEq

/-- Model of `ApiResponse<T>`: `{success:true, data}` or
`{success:false, error}`. -/
inductive ApiResult (α : Type) where
  | success (data : α) : ApiResult α
  | failure (error : String) : ApiResult α

/-- Model of the canonical `StockQuote` as the adapters build it.  Fields
hold the JavaScript values assigned by the source (possibly `undefined` =
`none`, possibly NaN from `parseFloat`).  `timestampArg` is the raw
argument passed to `new Date(...)` (`none` for a no-argument `new Date()`). -/
structure StockQuote where
  symbol : Option Json
  price : Option Json
  change : Option Json
  changePercent : Option Json
  volume : Option Json
  high : Option Json
  low : Option Json
  openP : Option Json
  previousClose : Option Json
  timestampArg : Option Json
  currency : String
  exchange : Option String

/-- Display string of a JSON value, used only to fill `ApiError.message`
when the source passes a response field as the message (the message text
is never branched on). -/
def jsMessageString : Option Json → String
  | some (Json.str s) => s
  | _ => ""

/-- Optional-chain access `v?.[key]`. -/
def jsOptGet (v : Option Json) (key : String) : Option Json :=
  match v with
  | none => none
  | some Json.null => none
  | some c => jsGetField c key

namespace AlphaVantageAdapter

/-- JavaScript `s.replace("%", "")`: removes the first occurrence only. -/
def removeFirstPercent (s : String) : String :=
  let rec go : List Char → List Char
    | [] => []
    | c :: r => if c == '%' then r else c :: go r
  String.mk (go s.toList)

/-- Model of `AlphaVantageAdapter.getQuote`
(`src/lib/adapters/alphaVantage/index.ts`).  The network interaction is an
explicit input: `fetched` is either the parsed JSON body or a transport /
parse failure message (which the generic `catch` converts into
`{success:false}`).  A thrown `ApiError` is re-thrown by the `catch` and
escapes the method (`Except.error`); the symbol taken from the response
field `01. symbol` is used verbatim, and `currency` is the constant
`"USD"`.  Accessing `.replace` on a missing or non-string
`10. change percent` field throws a `TypeError`, which the `catch` turns
into `{success:false}`. -/
def getQuote (fetched : Except String Json) :
    Except ApiError (ApiResult StockQuote) :=
  match fetched with
  | Except.error msg => Except.ok (ApiResult.failure msg)
  | Except.ok data =>
    if jsTruthy (jsGetField data "Error Message") then
      Except.error { message := jsMessageString (jsGetField data "Error Message")
                     code := ApiErrorCode.INVALID_SYMBOL }
    else if jsTruthy (jsGetField data "Note") then
      Except.error { message := "API call frequency limit reached"
                     code := ApiErrorCode.RATE_LIMIT_EXCEEDED }
    else
      match jsGetField data "Global Quote" with
      | some quote =>
        if jsTruthy (some quote) then
          match jsGetField quote "10. change percent" with
          | some (Json.str pct) =>
            Except.ok (ApiResult.success
              { symbol := jsGetField quote "01. symbol"
                price := some (jsParseFloat (jsGetField quote "05. price"))
                change := some (jsParseFloat (jsGetField quote "09. change"))
                changePercent := some (jsParseFloat (some (Json.str (removeFirstPercent pct))))
                volume := some (jsParseInt (jsGetField quote "06. volume"))
                high := some (jsParseFloat (jsGetField quote "03. high"))
                low := some (jsParseFloat (jsGetField quote "04. low"))
                openP := some (jsParseFloat (jsGetField quote "02. open"))
                previousClose := some (jsParseFloat (jsGetField quote "08. previous close"))
                timestampArg := jsGetField quote "07. latest trading day"
                currency := "USD"
                exchange := none })
          | _ => Except.ok (ApiResult.failure "TypeError")
        else
          Except.error { message := "No data available for symbol"
                         code := ApiErrorCode.NO_DATA }
      | none =>
        Except.error { message := "No data available for symbol"
                       code := ApiErrorCode.NO_DATA }

end AlphaVantageAdapter

namespace IndianApiAdapter

/-- Model of `IndianApiAdapter.getQuote` (`src/lib/adapters/IndianApi`).
The fetch outcome is an explicit input: a failure message, or the HTTP
status code together with the parsed body.  On success the symbol is the
raw `tickerId` response field (the `|| request.symbol.toUpperCase()`
fallback is unreachable because a falsy `tickerId` already threw
`NO_DATA`); `currency` is the constant `"INR"`;  `new Date()` takes no
argument, so `timestampArg` is `none`. -/
def getQuote (requestSymbol : String) (fetched : Except String (Nat × Json)) :
    Except ApiError (ApiResult StockQuote) :=
  match fetched with
  | Except.error msg => Except.ok (ApiResult.failure msg)
  | Except.ok (status, data) =>
    if ¬ (200 ≤ status ∧ status < 300) then
      if status = 404 then
        Except.error { message := "Stock not found", code := ApiErrorCode.INVALID_SYMBOL }
      else
        Except.error { message := "HTTP " ++ toString status
                       code := ApiErrorCode.HTTP_ERROR, status := some status }
    else
      let tickerId := jsGetField data "tickerId"
      if ¬ jsTruthy tickerId then
        Except.error { message := "No data available for symbol", code := ApiErrorCode.NO_DATA }
      else
        let curNSE := jsOptGet (jsGetField data "currentPrice") "NSE"
        let currentPrice := if jsTruthy curNSE then curNSE
                            else jsOptGet (jsGetField data "currentPrice") "BSE"
        if ¬ jsTruthy currentPrice then
          Except.error { message := "No price data available", code := ApiErrorCode.NO_DATA }
        else
          let pctRaw := jsGetField data "percentChange"
          let pct := if jsTruthy pctRaw then pctRaw else some (Json.num 0)
          let price := currentPrice
          Except.ok (ApiResult.success
            { symbol := if jsTruthy tickerId then tickerId
                        else some (Json.str (upperStr requestSymbol))
              price := price
              change :=
                if jsTruthy pctRaw then
                  some (numJson (do
                    let p ← toNum price
                    let c ← toNum pctRaw
                    pure (ratDiv (ratMul p c) 100)))
                else some (Json.num 0)
              changePercent := pct
              volume := some (Json.num 0)
              high := if jsTruthy (jsGetField data "yearHigh") then jsGetField data "yearHigh"
                      else some (Json.num 0)
              low := if jsTruthy (jsGetField data "yearLow") then jsGetField data "yearLow"
                     else some (Json.num 0)
              openP := price
              previousClose := some (numJson (do
                let p ← toNum price
                let c ← toNum pct
                pure (ratMul p (ratSub 1 (ratDiv c 100)))))
              timestampArg := none
              currency := "INR"
              exchange := some (if jsTruthy curNSE then "NSE" else "BSE") })

end IndianApiAdapter

namespace FinnhubAdapter

/-- JavaScript strict equality `v === 0`. -/
def strictEqZero (v : Option Json) : Bool :=
  match v with
  | some (Json.num q) => decide (q = 0)
  | _ => false

/-- Model of `FinnhubAdapter.getQuote` (`src/lib/adapters/finnhub`).  On
success the symbol is `request.symbol.toUpperCase()` and `currency` is
the constant `"USD"`; the price fields are the raw response fields. -/
def getQuote (requestSymbol : String) (fetched : Except String (Nat × Json)) :
    Except ApiError (ApiResult StockQuote) :=
  match fetched with
  | Except.error msg => Except.ok (ApiResult.failure msg)
  | Except.ok (status, data) =>
    if ¬ (200 ≤ status ∧ status < 300) then
      Except.error { message := "HTTP " ++ toString status
                     code := ApiErrorCode.HTTP_ERROR, status := some status }
    else if jsTruthy (jsGetField data "error") then
      Except.error { message := jsMessageString (jsGetField data "error")
                     code := ApiErrorCode.API_ERROR }
    else if strictEqZero (jsGetField data "c") ∧ strictEqZero (jsGetField data "h") ∧
            strictEqZero (jsGetField data "l") then
      Except.error { message := "No data available for symbol", code := ApiErrorCode.NO_DATA }
    else
      Except.ok (ApiResult.success
        { symbol := some (Json.str (upperStr requestSymbol))
          price := jsGetField data "c"
          change := jsGetField data "d"
          changePercent := jsGetField data "dp"
          volume := none
          high := jsGetField data "h"
          low := jsGetField data "l"
          openP := jsGetField data "o"
          previousClose := jsGetField data "pc"
          timestampArg := some (numJson ((toNum (jsGetField data "t")).map (fun q => ratMul q 1000)))
          currency := "USD"
          exchange := none })

end FinnhubAdapter

/-! ## Historical data (`getHistoricalData` of the built-in adapters) -/

/-- Model of `HistoricalDataRequest`.  `fromTime`/`toTime` are the epoch
values of the optional `Date` bounds; `limit` is the optional count. -/
structure HistRequest where
  symbol : String
  interval : String
  fromTime : Option ℚ
  toTime : Option ℚ
  limit : Option Nat

/-- Model of a `HistoricalDataPoint` as built by the adapters:
`timestampArg` is the raw argument of `new Date(...)`; the numeric fields
hold the JavaScript values assigned by the source. -/
structure HistPoint where
  timestampArg : Option Json
  openP : Option Json
  high : Option Json
  low : Option Json
  close : Option Json
  volume : Option Json

/-- Stable ascending insertion by an optional sort key; `none` (an invalid
date) never compares less-than, matching the comparator
`a.getTime() - b.getTime()` whose NaN result leaves order unchanged. -/
def cmpLtTime (a b : Option ℚ) : Bool :=
  match a, b with
  | some x, some y => decide (x < y)
  | _, _ => false

/-- Insert into an ascending-sorted list, keeping equal keys stable. -/
def insertAscBy (key : HistPoint → Option ℚ) (x : HistPoint) :
    List HistPoint → List HistPoint
  | [] => [x]
  | y :: ys => if cmpLtTime (key x) (key y) then x :: y :: ys else y :: insertAscBy key x ys

/-- Stable ascending sort (models `Array.prototype.sort`, which is stable). -/
def sortAscBy (key : HistPoint → Option ℚ) (l : List HistPoint) : List HistPoint :=
  l.foldl (fun acc x => insertAscBy key x acc) []

/-- JavaScript `a >= b` on epoch values; false when either side is NaN. -/
def geTime (a b : Option ℚ) : Bool :=
  match a, b with
  | some x, some y => decide (y ≤ x)
  | _, _ => false

/-- JavaScript `a <= b` on epoch values; false when either side is NaN. -/
def leTime (a b : Option ℚ) : Bool :=
  match a, b with
  | some x, some y => decide (x ≤ y)
  | _, _ => false

/-- JavaScript `arr.slice(-limit)` when `limit` is truthy (a truthy
`request.limit` is a positive count). -/
def applyLimit (limit : Option Nat) (l : List HistPoint) : List HistPoint :=
  match limit with
  | some (n + 1) => l.drop (l.length - (n + 1))
  | _ => l

namespace AlphaVantageAdapter

/-- The `functionMap` interval table of `getHistoricalData`. -/
def functionMap : List (String × String) :=
  [("1min", "TIME_SERIES_INTRADAY"), ("5min", "TIME_SERIES_INTRADAY"),
   ("15min", "TIME_SERIES_INTRADAY"), ("30min", "TIME_SERIES_INTRADAY"),
   ("1hour", "TIME_SERIES_INTRADAY"), ("1day", "TIME_SERIES_DAILY"),
   ("1week", "TIME_SERIES_WEEKLY"), ("1month", "TIME_SERIES_MONTHLY")]

/-- The post-fetch body of `getHistoricalData`: find the time-series key,
map the entries to points, sort ascending by parsed timestamp, filter by
the optional bounds and apply the limit.  `dateParse` is the platform
`Date.parse` oracle (epoch value, `none` = invalid date). -/
def histContinue (dateParse : String → Option ℚ) (req : HistRequest) (data : Json) :
    Except ApiError (ApiResult (List HistPoint)) :=
  if jsTruthy (jsGetField data "Error Message") then
    Except.error { message := jsMessageString (jsGetField data "Error Message")
                   code := ApiErrorCode.INVALID_SYMBOL }
  else
    let keys := match data with
      | Json.obj kvs => kvs.map Prod.fst
      | _ => []
    match keys.find? (fun k => jsIncludes k "Time Series") with
    | none =>
      Except.error { message := "No historical data available", code := ApiErrorCode.NO_DATA }
    | some tsKey =>
      match jsGetField data tsKey with
      | some tsVal =>
        if ¬ jsTruthy (some tsVal) then
          Except.error { message := "No historical data available", code := ApiErrorCode.NO_DATA }
        else
          let entries := match tsVal with
            | Json.obj kvs => kvs
            | _ => []
          let points := entries.map (fun kv =>
            { timestampArg := some (Json.str kv.1)
              openP := some (jsParseFloat (jsOptGet (some kv.2) "1. open"))
              high := some (jsParseFloat (jsOptGet (some kv.2) "2. high"))
              low := some (jsParseFloat (jsOptGet (some kv.2) "3. low"))
              close := some (jsParseFloat (jsOptGet (some kv.2) "4. close"))
              volume := some (jsParseInt
                (if jsTruthy (jsOptGet (some kv.2) "5. volume") then
                   jsOptGet (some kv.2) "5. volume"
                 else some (Json.str "0"))) : HistPoint })
          let keyOf : HistPoint → Option ℚ := fun p =>
            match p.timestampArg with
            | some (Json.str s) => dateParse s
            | _ => none
          let sorted := sortAscBy keyOf points
          let afterFrom := match req.fromTime with
            | some f => sorted.filter (fun p => geTime (keyOf p) (some f))
            | none => sorted
          let afterTo := match req.toTime with
            | some t => afterFrom.filter (fun p => leTime (keyOf p) (some t))
            | none => afterFrom
          Except.ok (ApiResult.success (applyLimit req.limit afterTo))
      | none =>
        Except.error { message := "No historical data available", code := ApiErrorCode.NO_DATA }

/-- Model of `AlphaVantageAdapter.getHistoricalData`.  The interval guard
runs before the URL is even built: when `request.interval` is not a key
of `functionMap` the method returns `{success:false, error:"Unsupported
interval: ..."}` without consulting the fetch outcome at all. -/
def getHistoricalData (dateParse : String → Option ℚ) (req : HistRequest)
    (fetched : Except String Json) : Except ApiError (ApiResult (List HistPoint)) :=
  match functionMap.lookup req.interval with
  | none => Except.ok (ApiResult.failure ("Unsupported interval: " ++ req.interval))
  | some _func =>
    match fetched with
    | Except.error msg => Except.ok (ApiResult.failure msg)
    | Except.ok data => histContinue dateParse req data

end AlphaVantageAdapter

namespace FinnhubAdapter

/-- The `resolutionMap` interval table of `getHistoricalData`. -/
def resolutionMap : List (String × String) :=
  [("1min", "1"), ("5min", "5"), ("15min", "15"), ("30min", "30"),
   ("1hour", "60"), ("1day", "D"), ("1week", "W"), ("1month", "M")]

/-- JavaScript strict equality `v === s` for a string literal. -/
def strictEqStr (v : Option Json) (s : String) : Bool :=
  match v with
  | some (Json.str t) => t == s
  | _ => false

/-- The post-fetch body of `FinnhubAdapter.getHistoricalData`: check the
status field, zip the candle arrays into points, and apply the limit.
Indexing `data.o[index]` on a missing array throws a `TypeError`, which
the generic `catch` converts into `{success:false}`. -/
def histContinue (status : Nat) (data : Json) (req : HistRequest) :
    Except ApiError (ApiResult (List HistPoint)) :=
  if ¬ (200 ≤ status ∧ status < 300) then
    Except.error { message := "HTTP " ++ toString status
                   code := ApiErrorCode.HTTP_ERROR, status := some status }
  else if strictEqStr (jsGetField data "s") "no_data" then
    Except.error { message := "No historical data available", code := ApiErrorCode.NO_DATA }
  else if ¬ strictEqStr (jsGetField data "s") "ok" then
    Except.error { message := "Failed to fetch data", code := ApiErrorCode.API_ERROR }
  else
    match jsGetField data "t" with
    | some (Json.arr ts) =>
      let fieldAt : String → Nat → Except Unit (Option Json) := fun name i =>
        match jsGetField data name with
        | none => Except.error ()
        | some Json.null => Except.error ()
        | some v => Except.ok (jsIndex v i)
      let build : List (Except Unit HistPoint) :=
        (List.range ts.length).map (fun i => do
          let o ← fieldAt "o" i
          let h ← fieldAt "h" i
          let l ← fieldAt "l" i
          let c ← fieldAt "c" i
          let v ← fieldAt "v" i
          pure { timestampArg := some (numJson ((toNum (ts.get? i)).map (fun q => ratMul q 1000)))
                 openP := o, high := h, low := l, close := c, volume := v })
      match build.mapM id with
      | Except.error _ => Except.ok (ApiResult.failure "TypeError")
      | Except.ok points => Except.ok (ApiResult.success (applyLimit req.limit points))
    | _ => Except.ok (ApiResult.failure "TypeError")

/-- Model of `FinnhubAdapter.getHistoricalData`: the interval guard fires
before the URL is built and before any fetch. -/
def getHistoricalData (req : HistRequest) (fetched : Except String (Nat × Json)) :
    Except ApiError (ApiResult (List HistPoint)) :=
  match resolutionMap.lookup req.interval with
  | none => Except.ok (ApiResult.failure ("Unsupported interval: " ++ req.interval))
  | some _res =>
    match fetched with
    | Except.error msg => Except.ok (ApiResult.failure msg)
    | Except.ok (status, data) => histContinue status data req

end FinnhubAdapter

namespace IndianApiAdapter

/-- The `intervalMap` interval table of `getHistoricalData`. -/
def intervalMap : List (String × String) :=
  [("1min", "1m"), ("5min", "5m"), ("15min", "15m"), ("30min", "30m"),
   ("1hour", "1h"), ("1day", "1d"), ("1week", "1w"), ("1month", "1M")]

/-- The post-fetch body of `IndianApiAdapter.getHistoricalData`. -/
def histContinue (status : Nat) (data : Json) :
    Except ApiError (ApiResult (List HistPoint)) :=
  if ¬ (200 ≤ status ∧ status < 300) then
    Except.error { message := "HTTP " ++ toString status
                   code := ApiErrorCode.HTTP_ERROR, status := some status }
  else if ¬ jsTruthy (jsGetField data "success") then
    Except.error { message :=
                     (if jsTruthy (jsGetField data "message") then
                        jsMessageString (jsGetField data "message")
                      else "No historical data available")
                   code := ApiErrorCode.NO_DATA }
  else
    let body := if jsTruthy (jsGetField data "data") then jsGetField data "data"
                else some (Json.arr [])
    match body with
    | some (Json.arr items) =>
      Except.ok (ApiResult.success (items.map (fun item =>
        { timestampArg := if jsTruthy (jsOptGet (some item) "date") then
                            jsOptGet (some item) "date"
                          else jsOptGet (some item) "timestamp"
          openP := some (jsParseFloat (jsOptGet (some item) "open"))
          high := some (jsParseFloat (jsOptGet (some item) "high"))
          low := some (jsParseFloat (jsOptGet (some item) "low"))
          close := some (jsParseFloat (jsOptGet (some item) "close"))
          volume := some (jsParseInt
            (if jsTruthy (jsOptGet (some item) "volume") then jsOptGet (some item) "volume"
             else some (Json.str "0"))) : HistPoint })))
    | _ => Except.ok (ApiResult.failure "TypeError")

/-- Model of `IndianApiAdapter.getHistoricalData`: the interval guard fires
before the URL is built and before any fetch. -/
def getHistoricalData (req : HistRequest) (fetched : Except String (Nat × Json)) :
    Except ApiError (ApiResult (List HistPoint)) :=
  match intervalMap.lookup req.interval with
  | none => Except.ok (ApiResult.failure ("Unsupported interval: " ++ req.interval))
  | some _res =>
    match fetched with
    | Except.error msg => Except.ok (ApiResult.failure msg)
    | Except.ok (status, data) => histContinue status data

end IndianApiAdapter

/-! ## Structure detector (`src/lib/api-client.ts`, `ApiStructureDetector`) -/

namespace ApiStructureDetector

/-- A candidate mapping for a detected field: target canonical field and
confidence.  (The human-readable `reason` string of the source is carried
nowhere else and is dropped.) -/
structure Cand where
  targetField : String
  confidence : ℚ
deriving DecidableEq

/-- Model of `DetectedField` (`@/types/custom-api.ts`); `ftype` is the
source field `type`. -/
structure DetectedField where
  path : String
  value : Json
  ftype : FieldType
  possibleMappings : List Cand

/-- Confidence buckets of a detection. -/
inductive Confidence where
  | high : Confidence
  | medium : Confidence
  | low : Confidence
deriving DecidableEq

/-- Model of `DetectedApiStructure` (the `endpoint`/`sampleResponse`
pass-through fields are omitted). -/
structure DetectedStructure where
  detectedFields : List DetectedField
  suggestedMappings : List ApiFieldMapping
  confidence : Confidence

/-- The `FIELD_PATTERNS` synonym table, in source order. -/
def FIELD_PATTERNS : List (String × List String) :=
  [("symbol", ["symbol", "ticker", "code", "stock_code", "instrument"]),
   ("price", ["price", "last", "last_price", "current_price", "close", "ltp", "lastPrice"]),
   ("change", ["change", "net_change", "price_change", "daily_change"]),
   ("changePercent", ["change_percent", "percent_change", "pct_change", "change_pct", "percentage"]),
   ("volume", ["volume", "vol", "total_volume", "traded_volume"]),
   ("high", ["high", "day_high", "daily_high", "h"]),
   ("low", ["low", "day_low", "daily_low", "l"]),
   ("open", ["open", "open_price", "opening_price", "o"]),
   ("previousClose", ["prev_close", "previous_close", "yesterday_close", "pc"]),
   ("name", ["name", "company_name", "full_name", "companyName"]),
   ("description", ["description", "about", "business_description", "summary"]),
   ("sector", ["sector", "industry_sector", "gics_sector"]),
   ("industry", ["industry", "sub_industry", "gics_industry"]),
   ("marketCap", ["market_cap", "market_capitalization", "mcap", "marketCapitalization"]),
   ("employees", ["employees", "employee_count", "total_employees", "workforce"]),
   ("website", ["website", "web_url", "homepage", "url"]),
   ("title", ["title", "headline", "subject", "header"]),
   ("summary", ["summary", "description", "excerpt", "snippet"]),
   ("publishedAt", ["published_at", "date", "timestamp", "created_at", "pub_date"]),
   ("source", ["source", "publisher", "author", "provider"]),
   ("url", ["url", "link", "href", "article_url"]),
   ("timestamp", ["timestamp", "date", "time", "datetime", "t"]),
   ("close", ["close", "closing_price", "c"])]

/-- Character-shape prefix matcher used to model the anchored regexes. -/
def matchesShape : List (Char → Bool) → List Char → Bool
  | [], _ => true
  | _ :: _, [] => false
  | p :: ps, c :: cs => p c && matchesShape ps cs

/-- The `VALUE_PATTERNS.symbol` regex `^[A-Z]{1,8}$`. -/
def symbolValuePattern (s : String) : Bool :=
  let l := s.toList
  decide (1 ≤ l.length) && decide (l.length ≤ 8) && l.all (fun c => c.isUpper)

/-- The `VALUE_PATTERNS.url` regex (a leading `http://` or `https://`). -/
def urlValuePattern (s : String) : Bool :=
  startsWithB s "http://" || startsWithB s "https://"

/-- The `VALUE_PATTERNS.date` regex: a leading `dddd-dd-dd`, or a whole
string of 10–13 digits, or a leading `dddd/dd/dd`. -/
def dateValuePattern (s : String) : Bool :=
  let l := s.toList
  let d : Char → Bool := fun c => c.isDigit
  let lit : Char → Char → Bool := fun ch c => c == ch
  matchesShape [d, d, d, d, lit '-', d, d, lit '-', d, d] l ||
  (l.all (fun c => c.isDigit) && decide (10 ≤ l.length) && decide (l.length ≤ 13)) ||
  matchesShape [d, d, d, d, lit '/', d, d, lit '/', d, d] l

/-- Model of `getValueType`.  `dateParseOk` is the platform oracle for
`!isNaN(Date.parse(value))` (only consulted when the date regex fails,
because `||` short-circuits). -/
def getValueType (dateParseOk : String → Bool) (v : Json) : FieldType :=
  match v with
  | Json.arr _ => FieldType.array
  | Json.null => FieldType.object
  | Json.bool _ => FieldType.boolean
  | Json.num _ => FieldType.number
  | Json.nan => FieldType.number
  | Json.str s => if dateValuePattern s || dateParseOk s then FieldType.date else FieldType.string
  | Json.obj _ => FieldType.object

/-- Stable insertion for a descending sort by a rational key. -/
def insertDescBy {α : Type} (key : α → ℚ) (x : α) : List α → List α
  | [] => [x]
  | y :: ys => if key y < key x then x :: y :: ys else y :: insertDescBy key x ys

/-- Stable descending sort by a rational key (models the stable
`Array.prototype.sort` with comparator `b.confidence - a.confidence`). -/
def sortDescBy {α : Type} (key : α → ℚ) (l : List α) : List α :=
  l.foldl (fun acc x => insertDescBy key x acc) []

/-- Model of `findPossibleMappings(fieldName, value)`: name-synonym
matches (exact match 0.9, substring match 0.7) in table order, then
value-shape heuristics, sorted by confidence and truncated to the top 3.
`value.toString().includes(".")` on the numbers in range is modelled as
"not an integer" (denominator ≠ 1). -/
def findPossibleMappings (fieldName : String) (value : Json) : List Cand :=
  let lower := lowerStr fieldName
  let nameCands := FIELD_PATTERNS.flatMap (fun tp =>
    tp.2.filterMap (fun pat =>
      let lp := lowerStr pat
      if jsIncludes lower lp then
        some { targetField := tp.1
               confidence := if lower == lp then Rat.divInt 9 10 else Rat.divInt 7 10 }
      else none))
  let valueCands : List Cand :=
    match value with
    | Json.str s =>
      (if symbolValuePattern s then [{ targetField := "symbol", confidence := Rat.divInt 8 10 }]
       else []) ++
      (if urlValuePattern s then [{ targetField := "url", confidence := Rat.divInt 9 10 }]
       else [])
    | Json.num q =>
      (if 0 < q ∧ q < 10000 ∧ q.den ≠ 1 then
         [{ targetField := "price", confidence := Rat.divInt 6 10 }]
       else []) ++
      (if 1000 < q ∧ q.den = 1 then
         [{ targetField := "volume", confidence := Rat.divInt 5 10 }]
       else [])
    | _ => []
  (sortDescBy (fun c => c.confidence) (nameCands ++ valueCands)).take 3

mutual

/-- The `traverse` closure of `extractFields`: recurse into objects and
into the first 3 elements of arrays; push a leaf entry for every
non-object value (`typeof null` is `"object"`, so a `null` array element
is traversed — producing nothing — while a `null` object value is pushed
as a leaf). -/
def traverseJson (op : String → Bool) (cur : Json) (curPath : String) : List DetectedField :=
  match cur with
  | Json.arr items => traverseArr op items curPath 0
  | Json.obj kvs => traverseObj op kvs curPath
  | _ => []

/-- Array part of the traversal (`current.slice(0,3).forEach(...)`). -/
def traverseArr (op : String → Bool) (items : List Json) (curPath : String) (idx : Nat) :
    List DetectedField :=
  match items with
  | [] => []
  | item :: rest =>
    (if idx < 3 then
       match item with
       | Json.null => traverseJson op item (curPath ++ "[" ++ toString idx ++ "]")
       | Json.arr _ => traverseJson op item (curPath ++ "[" ++ toString idx ++ "]")
       | Json.obj _ => traverseJson op item (curPath ++ "[" ++ toString idx ++ "]")
       | _ =>
         [{ path := curPath ++ "[" ++ toString idx ++ "]"
            value := item
            ftype := getValueType op item
            possibleMappings := findPossibleMappings curPath item }]
     else []) ++ traverseArr op rest curPath (idx + 1)

/-- Object part of the traversal (`Object.entries(current).forEach(...)`). -/
def traverseObj (op : String → Bool) (kvs : List (String × Json)) (curPath : String) :
    List DetectedField :=
  match kvs with
  | [] => []
  | (k, v) :: rest =>
    let newPath := if curPath == "" then k else curPath ++ "." ++ k
    (match v with
     | Json.arr _ => traverseJson op v newPath
     | Json.obj _ => traverseJson op v newPath
     | _ =>
       [{ path := newPath
          value := v
          ftype := getValueType op v
          possibleMappings := findPossibleMappings k v }]) ++ traverseObj op rest curPath

end

/-- Model of `extractFields(sampleResponse)`. -/
def extractFields (op : String → Bool) (sample : Json) : List DetectedField :=
  traverseJson op sample ""

/-- The expected API kind passed to `detectStructure`. -/
inductive ApiKind where
  | quote : ApiKind
  | historical : ApiKind
  | profile : ApiKind
  | news : ApiKind
  | search : ApiKind
deriving DecidableEq

/-- Model of `getRequiredFields`. -/
def getRequiredFields : ApiKind → List String
  | ApiKind.quote => ["symbol", "price", "timestamp"]
  | ApiKind.historical => ["timestamp", "open", "high", "low", "close", "volume"]
  | ApiKind.profile => ["symbol", "name"]
  | ApiKind.news => ["title", "publishedAt", "source"]
  | ApiKind.search => ["symbol"]

/-- Model of `isFieldRequired`. -/
def isFieldRequired (f : String) (k : ApiKind) : Bool :=
  (getRequiredFields k).contains f

/-- Model of `suggestTransform(value, type)`. -/
def suggestTransform (value : Json) (t : FieldType) : TransformKind :=
  if decide (t = FieldType.string) &&
     (match value with
      | Json.str s =>
        s == lowerStr s &&
        ((FIELD_PATTERNS.lookup "symbol").getD []).any
          (fun pat => jsIncludes (lowerStr pat) (lowerStr s))
      | _ => false) then
    TransformKind.uppercase
  else if decide (t = FieldType.number) &&
          (match value with
           | Json.str s => (parseLeadingFloat s).isSome
           | _ => false) then
    TransformKind.parse_float
  else if decide (t = FieldType.date) &&
          (match value with | Json.str _ => true | _ => false) then
    TransformKind.parse_date
  else
    match value with
    | Json.num q => if ratAbs q < 1 ∧ q ≠ 0 then TransformKind.multiply_100 else TransformKind.none
    | _ => TransformKind.none

/-- The best-candidate selection inside `generateMappings`: over the
fields not yet used, gather the candidates for the wanted target field,
sort by confidence (stable) and take the head. -/
def bestMatchFor (fields : List DetectedField) (used : List String) (targetField : String) :
    Option (Cand × DetectedField) :=
  (sortDescBy (fun cf => cf.1.confidence)
    ((fields.filter (fun f => ¬ used.contains f.path)).flatMap
      (fun f => (f.possibleMappings.filter (fun c => c.targetField == targetField)).map
        (fun c => (c, f))))).head?

/-- Model of `generateMappings(detectedFields, expectedType)`. -/
def generateMappings (fields : List DetectedField) (kind : ApiKind) : List ApiFieldMapping :=
  ((getRequiredFields kind).foldl
    (fun (acc : List ApiFieldMapping × List String) tf =>
      match bestMatchFor fields acc.2 tf with
      | some (c, f) =>
        if Rat.divInt 1 2 < c.confidence then
          (acc.1 ++ [{ sourceField := f.path
                       targetField := tf
                       dataType := if f.ftype = FieldType.object then FieldType.string else f.ftype
                       transform := suggestTransform f.value f.ftype
                       defaultValue := none
                       required := isFieldRequired tf kind }],
           acc.2 ++ [f.path])
        else acc
      | none => acc)
    ([], [])).1

/-- Model of `calculateConfidence(mappings)`: the average of the weights
(1 for a required mapping, 0.5 otherwise) bucketed at 0.8 and 0.5.  The
average is compared exactly: with weights counted in halves,
`avg > 0.8 ↔ 5·sum > 8·n` and `avg > 0.5 ↔ sum > n`. -/
def calculateConfidence (mappings : List ApiFieldMapping) : Confidence :=
  if mappings.length = 0 then Confidence.low
  else
    let sumHalves := mappings.foldl (fun acc m => acc + (if m.required then 2 else 1)) 0
    if 8 * mappings.length < 5 * sumHalves then Confidence.high
    else if mappings.length < sumHalves then Confidence.medium
    else Confidence.low

/-- Model of `detectStructure(endpoint, sampleResponse, expectedType)`
(pure part; the `endpoint` string is a pass-through). -/
def detectStructure (op : String → Bool) (sample : Json) (kind : ApiKind) : DetectedStructure :=
  let detectedFields := extractFields op sample
  let suggestedMappings := generateMappings detectedFields kind
  { detectedFields := detectedFields
    suggestedMappings := suggestedMappings
    confidence := calculateConfidence suggestedMappings }

end ApiStructureDetector

/-! ## Realtime connection manager (`WebSocketManager`) -/

/-- Association-list update with JavaScript `Map.set` semantics: replace in
place when the key exists, otherwise append (insertion order). -/
def setAssoc {α : Type} (l : List (String × α)) (k : String) (v : α) : List (String × α) :=
  if (l.lookup k).isSome then
    l.map (fun kv => if kv.1 == k then (k, v) else kv)
  else l ++ [(k, v)]

/-- Association-list removal (`Map.delete`). -/
def eraseAssoc {α : Type} (l : List (String × α)) (k : String) : List (String × α) :=
  l.filter (fun kv => !(kv.1 == k))

/-- Association-list update for `Nat` keys (socket identities). -/
def setAssocN {α : Type} (l : List (Nat × α)) (k : Nat) (v : α) : List (Nat × α) :=
  if (l.lookup k).isSome then
    l.map (fun kv => if kv.1 == k then (k, v) else kv)
  else l ++ [(k, v)]

namespace WebSocketManager

/-- The deployment-supplied `WebSocketConfig` fields the manager branches
on (`url`/`protocols`/`headers` are pass-through wire data). -/
structure WSConfig where
  reconnectInterval : Option Nat
  maxReconnectAttempts : Option Nat
deriving DecidableEq

/-- JavaScript `o || d` on an optional number: `undefined` and `0` are
falsy. -/
def orFalsy (o : Option Nat) (d : Nat) : Nat :=
  match o with
  | some v => if v = 0 then d else v
  | none => d

/-- Transport state of one `WebSocket` object. -/
inductive SockStatus where
  | connecting : SockStatus
  | openS : SockStatus
  | closedS : SockStatus
deriving DecidableEq

/-- One `WebSocket` object: its provider, the `config` captured by its
event closures, its transport state, and whether the client already
called `close(1000)` on it. -/
structure SockInfo where
  provider : String
  cfg : WSConfig
  status : SockStatus
  clientClosed : Bool
deriving DecidableEq

/-- Whether a scheduled `setTimeout` already fired.  The source never
deletes a fired timer from `reconnectTimers`; only `disconnect` does. -/
inductive TimerState where
  | pending : TimerState
  | fired : TimerState
deriving DecidableEq

/-- A scheduled reconnect timer: its backoff delay, the attempt counter
value captured by the callback closure, the captured config, and its state. -/
structure TimerInfo where
  delay : Nat
  attemptsAtSchedule : Nat
  cfg : WSConfig
  state : TimerState
deriving DecidableEq

/-- The state of the `WebSocketManager` singleton, plus the pool of all
`WebSocket` objects ever created (identified by creation order) and an
instrumentation log `connectCalls` recording every entry into the
`connect` method (explicit or scheduled). -/
structure MState where
  connections : List (String × Nat)
  socks : List (Nat × SockInfo)
  nextSock : Nat
  subscriptions : List (String × List String)
  handlers : List (String × List Nat)
  reconnectAttempts : List (String × Nat)
  reconnectTimers : List (String × TimerInfo)
  connectCalls : List String
deriving DecidableEq

/-- The initial (empty) manager state. -/
def initState : MState :=
  { connections := [], socks := [], nextSock := 0, subscriptions := [],
    handlers := [], reconnectAttempts := [], reconnectTimers := [], connectCalls := [] }

/-- Model of `disconnect(providerId)`: close the current transport with a
normal code (mark it client-closed; its `close` event arrives later),
drop the connection entry, cancel any reconnect timer and clear the
attempt counter. -/
def disconnect (p : String) (s : MState) : MState :=
  let s1 :=
    match s.connections.lookup p with
    | some sid =>
      { s with
        socks :=
          match s.socks.lookup sid with
          | some info => setAssocN s.socks sid { info with clientClosed := true }
          | none => s.socks
        connections := eraseAssoc s.connections p }
    | none => s
  { s1 with
    reconnectTimers := eraseAssoc s1.reconnectTimers p
    reconnectAttempts := eraseAssoc s1.reconnectAttempts p }

/-- Model of `connect(providerId, config, apiConfig)`: disconnect first if
already connected, then create a fresh `WebSocket` and store it.  (The
attempt counter is reset by the `open` event, not here.) -/
def connect (p : String) (cfg : WSConfig) (s : MState) : MState :=
  let s := { s with connectCalls := s.connectCalls ++ [p] }
  let s := if (s.connections.lookup p).isSome then disconnect p s else s
  let sid := s.nextSock
  { s with
    socks := s.socks ++ [(sid, { provider := p, cfg := cfg,
                                 status := SockStatus.connecting, clientClosed := false })]
    nextSock := sid + 1
    connections := setAssoc s.connections p sid }

/-- Model of `attemptReconnect(providerId, config, apiConfig)`: read the
current attempt count, stop at the cap, otherwise schedule a timer with
delay `interval × 2^attempts` capturing the current count. -/
def attemptReconnect (p : String) (cfg : WSConfig) (s : MState) : MState :=
  let attempts := (s.reconnectAttempts.lookup p).getD 0
  let maxAttempts := orFalsy cfg.maxReconnectAttempts 5
  if attempts ≥ maxAttempts then s
  else
    let interval := orFalsy cfg.reconnectInterval 5000
    let backoff := interval * 2 ^ attempts
    let timer : TimerInfo :=
      { delay := backoff, attemptsAtSchedule := attempts, cfg := cfg,
        state := TimerState.pending }
    { s with reconnectTimers := setAssoc s.reconnectTimers p timer }

/-- Model of `addHandler(providerId, handler)`: handlers live in a `Set`
(insertion-ordered, duplicate-free), so re-adding is a no-op. -/
def addHandler (p : String) (h : Nat) (s : MState) : MState :=
  let hs := (s.handlers.lookup p).getD []
  let hs2 := if hs.contains h then hs else hs ++ [h]
  { s with handlers := setAssoc s.handlers p hs2 }

/-- Model of `removeHandler(providerId, handler)`. -/
def removeHandler (p : String) (h : Nat) (s : MState) : MState :=
  match s.handlers.lookup p with
  | some hs => { s with handlers := setAssoc s.handlers p (hs.erase h) }
  | none => s

/-- Model of `handleMessage(providerId, message)`: the sequence of handler
invocations for one inbound message (each registered handler is called
exactly once, in registration order; a throwing handler is caught and the
loop continues). -/
def handleMessage (p : String) (s : MState) : List Nat :=
  (s.handlers.lookup p).getD []

/-- The asynchronous events and API calls that drive the manager. -/
inductive Act where
  | connectA (p : String) (cfg : WSConfig) : Act
  | disconnectA (p : String) : Act
  | openEv (sid : Nat) : Act
  | closeEv (sid : Nat) (code : Nat) : Act
  | timerEv (p : String) : Act
deriving DecidableEq

/-- One scheduler step.  `none` means the event is not enabled: `open`
fires only on a connecting socket the client has not closed; `close`
fires once per socket, and a socket closed by the client via
`close(1000)` closes with code 1000; a timer fires only while pending.

The event effects are the source handlers: `onopen` resets the attempt
counter to 0 (and re-sends auth/subscribe frames — wire output, not part
of the state); `onclose` deletes the provider connection entry
unconditionally and calls `attemptReconnect` on a non-1000 code; the
timer callback bumps the attempt counter to the captured value + 1 and
calls `connect`. -/
def step (s : MState) (a : Act) : Option MState :=
  match a with
  | Act.connectA p cfg => some (connect p cfg s)
  | Act.disconnectA p => some (disconnect p s)
  | Act.openEv sid =>
    match s.socks.lookup sid with
    | some info =>
      if info.status = SockStatus.connecting ∧ info.clientClosed = false then
        some { s with
          socks := setAssocN s.socks sid { info with status := SockStatus.openS }
          reconnectAttempts := setAssoc s.reconnectAttempts info.provider 0 }
      else none
    | none => none
  | Act.closeEv sid code =>
    match s.socks.lookup sid with
    | some info =>
      if info.status ≠ SockStatus.closedS ∧ (info.clientClosed → code = 1000) then
        let s1 := { s with
          socks := setAssocN s.socks sid { info with status := SockStatus.closedS }
          connections := eraseAssoc s.connections info.provider }
        some (if code ≠ 1000 then attemptReconnect info.provider info.cfg s1 else s1)
      else none
    | none => none
  | Act.timerEv p =>
    match s.reconnectTimers.lookup p with
    | some t =>
      if t.state = TimerState.pending then
        let s1 := { s with
          reconnectTimers := setAssoc s.reconnectTimers p { t with state := TimerState.fired }
          reconnectAttempts := setAssoc s.reconnectAttempts p (t.attemptsAtSchedule + 1) }
        some (connect p t.cfg s1)
      else none
    | none => none

/-- Run a sequence of acts; `none` if any act is not enabled. -/
def runActs (s : MState) : List Act → Option MState
  | [] => some s
  | a :: rest =>
    match step s a with
    | some s1 => runActs s1 rest
    | none => none

end WebSocketManager

/-- Handler well-formedness of a manager state: every provider's handler
list is duplicate-free (handlers live in a JavaScript `Set`).  Holds for
the initial state and is preserved by `addHandler`/`removeHandler`. -/
def WebSocketManager.HandlersWf (s : WebSocketManager.MState) : Prop :=
  ∀ q : String, ((s.handlers.lookup q).getD []).Nodup

/-- The sample response of the structure-detection property:
`{symbol:"AAPL", price:187.32, timestamp:"2024-01-05T00:00:00Z"}`. -/
def sampleQuoteResponse : Json :=
  Json.obj [("symbol", Json.str "AAPL"),
            ("price", Json.num (Rat.divInt 18732 100)),
            ("timestamp", Json.str "2024-01-05T00:00:00Z")]

namespace ApiStructureDetector

/-- Candidates detected for the `symbol` field of the sample response. -/
def sampleSymbolCands : List Cand :=
  [{ targetField := "symbol", confidence := Rat.divInt 9 10 },
   { targetField := "symbol", confidence := Rat.divInt 8 10 },
   { targetField := "low", confidence := Rat.divInt 7 10 }]

/-- Candidates detected for the `price` field of the sample response. -/
def samplePriceCands : List Cand :=
  [{ targetField := "price", confidence := Rat.divInt 9 10 },
   { targetField := "close", confidence := Rat.divInt 7 10 },
   { targetField := "price", confidence := Rat.divInt 6 10 }]

/-- Candidates detected for the `timestamp` field of the sample response. -/
def sampleTsCands : List Cand :=
  [{ targetField := "publishedAt", confidence := Rat.divInt 9 10 },
   { targetField := "timestamp", confidence := Rat.divInt 9 10 },
   { targetField := "timestamp", confidence := Rat.divInt 7 10 }]

/-- The detected fields of the sample response, as a function of the one
subterm that depends on the platform `Date.parse` oracle (the inferred
type of the string `"AAPL"`). -/
def sampleFields (t1 : FieldType) : List DetectedField :=
  [{ path := "symbol", value := Json.str "AAPL", ftype := t1,
     possibleMappings := sampleSymbolCands },
   { path := "price", value := Json.num (Rat.divInt 18732 100), ftype := FieldType.number,
     possibleMappings := samplePriceCands },
   { path := "timestamp", value := Json.str "2024-01-05T00:00:00Z", ftype := FieldType.date,
     possibleMappings := sampleTsCands }]

end ApiStructureDetector

/-! ## Theorems

General helper lemmas first, then one main theorem per verified claim. -/

namespace CustomApiAdapter

/-- Walking any further segments from `undefined` stays `undefined` (or
throws, which the catch also turns into `undefined`). -/
theorem collapse_extractGo_none (ks : List String) :
    collapse (extractGo none ks) = none := by
  induction ks with
  | nil => rfl
  | cons k ks ih =>
    show collapse (extractGo none (k :: ks)) = none
    unfold extractGo extractStep
    cases h : parseArraySegment k with
    | none => simpa using ih
    | some kv => rfl

/-- `extractGo` splits over list append. -/
theorem extractGo_append (cur : Option Json) (l1 l2 : List String) :
    extractGo cur (l1 ++ l2) =
      match extractGo cur l1 with
      | Except.error e => Except.error e
      | Except.ok v => extractGo v l2 := by
  induction l1 generalizing cur with
  | nil => rfl
  | cons k ks ih =>
    cases h : extractStep cur k with
    | error e => simp [extractGo, h]
    | ok nxt => simp [extractGo, h, ih nxt]

end CustomApiAdapter

/-- C5.  `extractValue` applied to `{a:{b:[{c:5}]}}` with path
`"a.b[0].c"` returns `5`; whenever the walk reaches `undefined` after any
prefix of the path segments (a missing key or an out-of-range index), the
whole extraction returns `undefined`; and a thrown `TypeError` during the
walk is caught, so the function returns `undefined` instead of raising. -/
theorem extractValue_example_and_missing_path :
    (CustomApiAdapter.extractValue
        (Json.obj [("a", Json.obj [("b", Json.arr [Json.obj [("c", Json.num 5)]])])])
        "a.b[0].c" = some (Json.num 5)) ∧
    (∀ (obj : Json) (path : String) (n : Nat),
       CustomApiAdapter.collapse
         (CustomApiAdapter.extractGo (some obj) ((jsSplitDot path).take n)) = none →
       CustomApiAdapter.extractValue obj path = none) ∧
    (∀ (obj : Json) (path : String),
       CustomApiAdapter.extractGo (some obj) (jsSplitDot path) = Except.error () →
       CustomApiAdapter.extractValue obj path = none) := by
  refine ⟨rfl, ?_, ?_⟩
  · intro obj path n h
    unfold CustomApiAdapter.extractValue
    have hsplit : jsSplitDot path = (jsSplitDot path).take n ++ (jsSplitDot path).drop n :=
      (List.take_append_drop n (jsSplitDot path)).symm
    rw [hsplit, CustomApiAdapter.extractGo_append]
    cases hgo : CustomApiAdapter.extractGo (some obj) ((jsSplitDot path).take n) with
    | error e => rfl
    | ok v =>
      rw [hgo] at h
      cases v with
      | none => simpa using CustomApiAdapter.collapse_extractGo_none ((jsSplitDot path).drop n)
      | some w => simp [CustomApiAdapter.collapse] at h
  · intro obj path h
    unfold CustomApiAdapter.extractValue
    rw [h]
    rfl

/-- C5 witness: the missing-key case at a concrete input (`"a.x.c"` on the
sample object, stopping after the prefix `["a","x"]`). -/
theorem extractValue_example_and_missing_path_witness :
    CustomApiAdapter.extractValue
      (Json.obj [("a", Json.obj [("b", Json.arr [Json.obj [("c", Json.num 5)]])])])
      "a.x.c" = none :=
  extractValue_example_and_missing_path.2.1
    (Json.obj [("a", Json.obj [("b", Json.arr [Json.obj [("c", Json.num 5)]])])])
    "a.x.c" 2 rfl

/-- Folding the error-collecting loop of `validateResponse` is the map of
the missing-field filter. -/
theorem foldl_collect_eq_map_filter {α β : Type} (p : α → Bool) (f : α → β)
    (l : List α) (acc : List β) :
    l.foldl (fun errors m => if p m then errors ++ [f m] else errors) acc =
      acc ++ (l.filter p).map f := by
  induction l generalizing acc with
  | nil => simp
  | cons x xs ih =>
    by_cases hx : p x
    · simp [hx, ih, List.filter_cons]
    · simp [hx, ih, List.filter_cons]

/-- C6.  `validateResponse` yields exactly one `ValidationError` per
required mapping whose extracted value is `null`/`undefined` (in mapping
order), and the empty list when every required mapping extracts a
non-null, non-undefined value. -/
theorem validateResponse_one_error_per_missing_required :
    ∀ (response : Json) (mappings : List ApiFieldMapping),
      CustomApiAdapter.validateResponse response mappings =
        ((mappings.filter (fun m => m.required)).filter
            (fun m => CustomApiAdapter.isMissingValue
              (CustomApiAdapter.extractValue response m.sourceField))).map
          (fun m => CustomApiAdapter.missingFieldError m.sourceField) ∧
      ((∀ m ∈ mappings, m.required = true →
          CustomApiAdapter.isMissingValue
            (CustomApiAdapter.extractValue response m.sourceField) = false) →
        CustomApiAdapter.validateResponse response mappings = []) := by
  intro response mappings
  have hmain :
      CustomApiAdapter.validateResponse response mappings =
        ((mappings.filter (fun m => m.required)).filter
            (fun m => CustomApiAdapter.isMissingValue
              (CustomApiAdapter.extractValue response m.sourceField))).map
          (fun m => CustomApiAdapter.missingFieldError m.sourceField) := by
    unfold CustomApiAdapter.validateResponse
    simpa using
      foldl_collect_eq_map_filter
        (fun m => CustomApiAdapter.isMissingValue
          (CustomApiAdapter.extractValue response m.sourceField))
        (fun m => CustomApiAdapter.missingFieldError m.sourceField)
        (mappings.filter (fun m => m.required)) []
  refine ⟨hmain, ?_⟩
  intro hall
  rw [hmain]
  have : (mappings.filter (fun m => m.required)).filter
      (fun m => CustomApiAdapter.isMissingValue
        (CustomApiAdapter.extractValue response m.sourceField)) = [] := by
    rw [List.filter_eq_nil_iff]
    intro m hm
    have hmem := List.mem_filter.mp hm
    have := hall m hmem.1 (by simpa using hmem.2)
    simp [this]
  rw [this]
  rfl

/-- C6 witness: a concrete response satisfying one required mapping (no
errors), applied through the main theorem. -/
theorem validateResponse_one_error_per_missing_required_witness :
    CustomApiAdapter.validateResponse (Json.obj [("price", Json.num 5)])
      [{ sourceField := "price", targetField := "price", dataType := FieldType.number,
         transform := TransformKind.none, defaultValue := none, required := true }] = [] :=
  (validateResponse_one_error_per_missing_required (Json.obj [("price", Json.num 5)])
    [{ sourceField := "price", targetField := "price", dataType := FieldType.number,
       transform := TransformKind.none, defaultValue := none, required := true }]).2
    (by decide)

/-- Association-list lookup distributes over append. -/
theorem lookup_append {β : Type} (k : String) (l1 l2 : List (String × β)) :
    List.lookup k (l1 ++ l2) =
      match List.lookup k l1 with
      | some v => some v
      | none => List.lookup k l2 := by
  induction l1 with
  | nil => rfl
  | cons kv rest ih =>
    by_cases h : k == kv.1
    · simp [List.lookup, h]
    · have hb : (k == kv.1) = false := by simpa using h
      simp [List.lookup, hb, ih]

/-- A successful lookup value is among the mapped values. -/
theorem lookup_mem_values {β : Type} (k : String) (v : β) (l : List (String × β))
    (h : List.lookup k l = some v) : v ∈ l.map Prod.snd := by
  induction l with
  | nil => simp [List.lookup] at h
  | cons kv rest ih =>
    by_cases hk : k == kv.1
    · simp [List.lookup, hk] at h
      simp [h]
    · have hb : (k == kv.1) = false := by simpa using hk
      simp only [List.lookup, hb] at h
      simp [ih h]

/-- With pairwise-distinct values, lookups at different keys give
different values. -/
theorem lookup_nodup_values_ne {β : Type} (k1 k2 : String) (v1 v2 : β)
    (l : List (String × β)) (hn : (l.map Prod.snd).Nodup)
    (h1 : List.lookup k1 l = some v1) (h2 : List.lookup k2 l = some v2)
    (hk : k1 ≠ k2) : v1 ≠ v2 := by
  induction l with
  | nil => simp [List.lookup] at h1
  | cons kv rest ih =>
    simp only [List.map_cons, List.nodup_cons] at hn
    by_cases e1 : k1 == kv.1
    · by_cases e2 : k2 == kv.1
      · exact absurd (by
          have a1 : k1 = kv.1 := by simpa using e1
          have a2 : k2 = kv.1 := by simpa using e2
          rw [a1, a2]) hk
      · have b2 : (k2 == kv.1) = false := by simpa using e2
        simp [List.lookup, e1] at h1
        simp only [List.lookup, b2] at h2
        intro hcon
        exact hn.1 (h1 ▸ hcon ▸ lookup_mem_values k2 v2 rest h2)
    · by_cases e2 : k2 == kv.1
      · have b1 : (k1 == kv.1) = false := by simpa using e1
        simp [List.lookup, e2] at h2
        simp only [List.lookup, b1] at h1
        intro hcon
        exact hn.1 (h2 ▸ hcon ▸ lookup_mem_values k1 v1 rest h1)
      · have b1 : (k1 == kv.1) = false := by simpa using e1
        have b2 : (k2 == kv.1) = false := by simpa using e2
        simp only [List.lookup, b1, b2] at h1 h2
        exact ih hn.2 h1 h2

namespace ApiAdapterFactory

/-- Unfolded shape of `getAdapter` (zeta-reduced), used to drive the case
analysis in the proofs below. -/
theorem getAdapter_eq (registered : List String) (p i : String) (s : FactoryState) :
    getAdapter registered p i s =
      match s.instances.lookup (p ++ "-" ++ i) with
      | some inst => (some inst, s)
      | none =>
        if registered.contains p then
          (some s.nextId,
           { instances := s.instances ++ [(p ++ "-" ++ i, s.nextId)],
             nextId := s.nextId + 1 })
        else (none, s) := rfl

/-- Every state the factory can reach is well formed: `getAdapter`
preserves the freshness invariant (and the initial state satisfies it). -/
theorem getAdapter_preserves_wf (registered : List String) (p i : String)
    (s : FactoryState) (h : WfState s) :
    WfState (getAdapter registered p i s).2 := by
  rw [getAdapter_eq]
  cases hl : s.instances.lookup (p ++ "-" ++ i) with
  | some v => exact h
  | none =>
    by_cases hr : registered.contains p
    · rw [if_pos hr]
      constructor
      · simp only [List.map_append]
        rw [List.nodup_append]
        refine ⟨h.1, by simp, ?_⟩
        intro v hv
        simp only [List.map_cons, List.map_nil, List.mem_singleton]
        intro hv2
        exact absurd (hv2 ▸ h.2 v hv) (lt_irrefl _)
      · intro v hv
        simp only [List.map_append] at hv
        rcases List.mem_append.mp hv with hv | hv
        · exact Nat.lt_succ_of_lt (h.2 v hv)
        · simp at hv
          simp [hv]
    · rw [if_neg hr]
      exact h

/-- The empty factory state is well formed. -/
theorem initialState_wf : WfState initialState := by
  constructor <;> simp [initialState]

end ApiAdapterFactory

/-- C1 counterexample.  The cache key is the bare string concatenation
`providerId + "-" + configId`, and the dashboard registers custom
providers under ids of the form `custom-<configId>` — so the registry can
contain both `custom-a` and `custom-a-b`.  The two distinct
configurations (providerId `custom-a`, id `b-c`) and (providerId
`custom-a-b`, id `c`) then collide on the key `custom-a-b-c` and resolve
to the *same* adapter instance, refuting the distinctness half of the
claim. -/
theorem getAdapter_distinct_configs_same_instance :
    (ApiAdapterFactory.getAdapter ["custom-a", "custom-a-b"] "custom-a" "b-c"
        ApiAdapterFactory.initialState).1 = some 0 ∧
    (ApiAdapterFactory.getAdapter ["custom-a", "custom-a-b"] "custom-a-b" "c"
        (ApiAdapterFactory.getAdapter ["custom-a", "custom-a-b"] "custom-a" "b-c"
          ApiAdapterFactory.initialState).2).1 = some 0 ∧
    ("custom-a", "b-c") ≠ (("custom-a-b", "c") : String × String) :=
  ⟨rfl, rfl, by decide⟩

/-- C1 (amended).  On any well-formed cache state: a second `getAdapter`
call with the same providerId and id returns the same instance without
changing the cache; and two configurations whose *composite cache keys*
`providerId + "-" + configId` differ resolve to distinct instances.
(Distinctness per (providerId, id) pair fails only through key collisions,
see the counterexample.) -/
theorem getAdapter_idempotent_and_key_faithful :
    ∀ (registered : List String) (p₁ i₁ p₂ i₂ : String) (s : ApiAdapterFactory.FactoryState),
      ApiAdapterFactory.WfState s →
      (∀ a s₁, ApiAdapterFactory.getAdapter registered p₁ i₁ s = (some a, s₁) →
         ApiAdapterFactory.getAdapter registered p₁ i₁ s₁ = (some a, s₁)) ∧
      (∀ a₁ s₁ a₂ s₂,
         ApiAdapterFactory.getAdapter registered p₁ i₁ s = (some a₁, s₁) →
         ApiAdapterFactory.getAdapter registered p₂ i₂ s₁ = (some a₂, s₂) →
         p₁ ++ "-" ++ i₁ ≠ p₂ ++ "-" ++ i₂ →
         a₁ ≠ a₂) := by
  intro registered p₁ i₁ p₂ i₂ s hwf
  constructor
  · intro a s₁ hga
    rw [ApiAdapterFactory.getAdapter_eq] at hga ⊢
    cases hl : s.instances.lookup (p₁ ++ "-" ++ i₁) with
    | some v =>
      rw [hl] at hga
      simp only [Prod.mk.injEq, Option.some.injEq] at hga
      obtain ⟨ha, hs⟩ := hga
      subst hs
      rw [hl, ha]
    | none =>
      rw [hl] at hga
      by_cases hr : registered.contains p₁
      · rw [if_pos hr] at hga
        simp only [Prod.mk.injEq, Option.some.injEq] at hga
        obtain ⟨ha, hs⟩ := hga
        subst hs
        subst ha
        have hlook : List.lookup (p₁ ++ "-" ++ i₁)
            (s.instances ++ [(p₁ ++ "-" ++ i₁, s.nextId)]) = some s.nextId := by
          rw [lookup_append, hl]
          simp [List.lookup]
        rw [hlook]
      · rw [if_neg hr] at hga
        simp at hga
  · intro a₁ s₁ a₂ s₂ hga1 hga2 hk
    rw [ApiAdapterFactory.getAdapter_eq] at hga1
    rw [ApiAdapterFactory.getAdapter_eq] at hga2
    cases hl1 : s.instances.lookup (p₁ ++ "-" ++ i₁) with
    | some v1 =>
      rw [hl1] at hga1
      simp only [Prod.mk.injEq, Option.some.injEq] at hga1
      obtain ⟨ha1, hs1⟩ := hga1
      subst hs1
      cases hl2 : s.instances.lookup (p₂ ++ "-" ++ i₂) with
      | some v2 =>
        rw [hl2] at hga2
        simp only [Prod.mk.injEq, Option.some.injEq] at hga2
        rw [← ha1, ← hga2.1]
        exact lookup_nodup_values_ne _ _ _ _ _ hwf.1 hl1 hl2 hk
      | none =>
        rw [hl2] at hga2
        by_cases hr2 : registered.contains p₂
        · rw [if_pos hr2] at hga2
          simp only [Prod.mk.injEq, Option.some.injEq] at hga2
          rw [← ha1, ← hga2.1]
          exact Nat.ne_of_lt (hwf.2 v1 (lookup_mem_values _ _ _ hl1))
        · rw [if_neg hr2] at hga2
          simp at hga2
    | none =>
      rw [hl1] at hga1
      by_cases hr1 : registered.contains p₁
      · rw [if_pos hr1] at hga1
        simp only [Prod.mk.injEq, Option.some.injEq] at hga1
        obtain ⟨ha1, hs1⟩ := hga1
        subst hs1
        have hne : ((p₂ ++ "-" ++ i₂) == (p₁ ++ "-" ++ i₁)) = false := by
          simpa using (Ne.symm hk)
        have hl2 : List.lookup (p₂ ++ "-" ++ i₂)
            (s.instances ++ [(p₁ ++ "-" ++ i₁, s.nextId)]) =
            s.instances.lookup (p₂ ++ "-" ++ i₂) := by
          rw [lookup_append]
          cases hx : s.instances.lookup (p₂ ++ "-" ++ i₂) with
          | some v => rfl
          | none => simp [List.lookup, hne]
        rw [hl2] at hga2
        cases hx : s.instances.lookup (p₂ ++ "-" ++ i₂) with
        | some v2 =>
          rw [hx] at hga2
          simp only [Prod.mk.injEq, Option.some.injEq] at hga2
          rw [← ha1, ← hga2.1]
          exact (Nat.ne_of_lt (hwf.2 v2 (lookup_mem_values _ _ _ hx))).symm
        | none =>
          rw [hx] at hga2
          by_cases hr2 : registered.contains p₂
          · rw [if_pos hr2] at hga2
            simp only [Prod.mk.injEq, Option.some.injEq] at hga2
            rw [← ha1, ← hga2.1]
            simp
          · rw [if_neg hr2] at hga2
            simp at hga2
      · rw [if_neg hr1] at hga1
        simp at hga1

/-- C1 witness: both conjuncts of the amended theorem applied at concrete
inputs — repeating a resolution for `("finnhub","x")` returns instance 0
again, and the differently-keyed `("alpha-vantage","y")` resolution that
follows it yields a distinct instance. -/
theorem getAdapter_idempotent_and_key_faithful_witness :
    (ApiAdapterFactory.getAdapter ["finnhub", "alpha-vantage"] "finnhub" "x"
        { instances := [("finnhub-x", 0)], nextId := 1 } =
      (some 0, { instances := [("finnhub-x", 0)], nextId := 1 })) ∧
    (0 : Nat) ≠ 1 := by
  have h := getAdapter_idempotent_and_key_faithful ["finnhub", "alpha-vantage"]
    "finnhub" "x" "alpha-vantage" "y" ApiAdapterFactory.initialState
    ApiAdapterFactory.initialState_wf
  refine ⟨?_, ?_⟩
  · exact h.1 0 { instances := [("finnhub-x", 0)], nextId := 1 } rfl
  · exact h.2 0 { instances := [("finnhub-x", 0)], nextId := 1 }
      1 { instances := [("finnhub-x", 0), ("alpha-vantage-y", 1)], nextId := 2 }
      rfl rfl (by decide)

namespace ApiAdapterFactory

/-- The `clearCache(configId)` scan leaves a list with no matching key
unchanged. -/
theorem deleteFirstMatching_no_match (l : List (String × Nat)) (sfx : String)
    (h : ∀ kv ∈ l, endsWithB kv.1 sfx = false) :
    deleteFirstMatching l sfx = l := by
  induction l with
  | nil => rfl
  | cons kv rest ih =>
    have hkv := h kv (by simp)
    simp only [deleteFirstMatching, hkv]
    simp only [Bool.false_eq_true, if_false]
    rw [ih (fun x hx => h x (by simp [hx]))]

/-- The `clearCache(configId)` scan removes exactly the first matching
entry and stops. -/
theorem deleteFirstMatching_first (l1 : List (String × Nat)) (x : String × Nat)
    (l2 : List (String × Nat)) (sfx : String)
    (h1 : ∀ kv ∈ l1, endsWithB kv.1 sfx = false)
    (hx : endsWithB x.1 sfx = true) :
    deleteFirstMatching (l1 ++ x :: l2) sfx = l1 ++ l2 := by
  induction l1 with
  | nil => simp [deleteFirstMatching, hx]
  | cons kv rest ih =>
    have hkv := h1 kv (by simp)
    simp only [List.cons_append, deleteFirstMatching, hkv]
    simp only [Bool.false_eq_true, if_false, List.append_eq]
    rw [ih (fun y hy => h1 y (by simp [hy]))]

end ApiAdapterFactory

/-- C2 counterexample.  The scan `for (const [key] of this.instances) {
if (key.endsWith(`-cfg`)) { delete; break } }` stops at the first hit, so
with two providers cached for the same configuration id (a state
reachable by two `getAdapter` calls), `clearCache("cfg")` removes only
the first entry and leaves the second entry of configuration `cfg`
stale — refuting "removes all cache entries associated with that
configuration". -/
theorem clearCache_leaves_stale_entry :
    (ApiAdapterFactory.clearCache (some "cfg")
        { instances := [("alpha-vantage-cfg", 0), ("finnhub-cfg", 1)], nextId := 2 }).instances
      = [("finnhub-cfg", 1)] ∧
    endsWithB "finnhub-cfg" ("-" ++ "cfg") = true :=
  ⟨rfl, rfl⟩

/-- C2 (amended).  `clearCache()` with no argument empties the cache; with
an id it removes the *first* entry (in insertion order) whose key ends
with `"-" + configId` — leaving every other entry, including any later
entry of the same configuration, unchanged — and is a no-op when no key
matches.  (A key of a different configuration can also match the suffix
and be removed instead; see the counterexample and §9 of the spec.) -/
theorem clearCache_removes_first_suffix_match :
    ∀ (s : ApiAdapterFactory.FactoryState) (cid : String),
      ((ApiAdapterFactory.clearCache none s).instances = []) ∧
      ((∀ kv ∈ s.instances, endsWithB kv.1 ("-" ++ cid) = false) →
         ApiAdapterFactory.clearCache (some cid) s = s) ∧
      (∀ l1 x l2, s.instances = l1 ++ x :: l2 →
         (∀ kv ∈ l1, endsWithB kv.1 ("-" ++ cid) = false) →
         endsWithB x.1 ("-" ++ cid) = true →
         (ApiAdapterFactory.clearCache (some cid) s).instances = l1 ++ l2) := by
  intro s cid
  refine ⟨rfl, ?_, ?_⟩
  · intro h
    show ({ s with instances :=
        ApiAdapterFactory.deleteFirstMatching s.instances ("-" ++ cid) }
      : ApiAdapterFactory.FactoryState) = s
    rw [ApiAdapterFactory.deleteFirstMatching_no_match s.instances _ h]
  · intro l1 x l2 hsplit h1 hx
    show ApiAdapterFactory.deleteFirstMatching s.instances ("-" ++ cid) = l1 ++ l2
    rw [hsplit]
    exact ApiAdapterFactory.deleteFirstMatching_first l1 x l2 _ h1 hx

/-- C2 witness: the amended theorem applied at a concrete two-entry
cache — the no-match branch leaves the state unchanged, and the
first-match branch removes exactly the matching head entry. -/
theorem clearCache_removes_first_suffix_match_witness :
    (ApiAdapterFactory.clearCache (some "zzz")
        { instances := [("finnhub-x", 0)], nextId := 1 } =
      { instances := [("finnhub-x", 0)], nextId := 1 }) ∧
    (ApiAdapterFactory.clearCache (some "cfg")
        { instances := [("alpha-vantage-cfg", 0), ("finnhub-y", 1)], nextId := 2 }).instances
      = [("finnhub-y", 1)] := by
  constructor
  · exact (clearCache_removes_first_suffix_match
      { instances := [("finnhub-x", 0)], nextId := 1 } "zzz").2.1 (by decide)
  · exact (clearCache_removes_first_suffix_match
      { instances := [("alpha-vantage-cfg", 0), ("finnhub-y", 1)], nextId := 2 } "cfg").2.2
      [] ("alpha-vantage-cfg", 0) [("finnhub-y", 1)] rfl (by simp) (by decide)

/-- C3 counterexample.  A successful AlphaVantage quote copies the
provider-reported symbol verbatim: for a response whose `01. symbol`
field is the lower-case `"aapl"`, the returned quote has symbol `"aapl"`
(which is not equal to its upper-casing), refuting "symbol field
upper-cased regardless of the casing in the provider's response".  The
currency half of the claim does hold (`"USD"` here). -/
theorem avGetQuote_keeps_provider_casing :
    (match AlphaVantageAdapter.getQuote (Except.ok (Json.obj [("Global Quote", Json.obj
        [("01. symbol", Json.str "aapl"), ("02. open", Json.str "10.2"),
         ("03. high", Json.str "11"), ("04. low", Json.str "10"),
         ("05. price", Json.str "10.5"), ("06. volume", Json.str "100"),
         ("07. latest trading day", Json.str "2024-01-05"),
         ("08. previous close", Json.str "10.4"), ("09. change", Json.str "0.1"),
         ("10. change percent", Json.str "0.96%")])])) with
     | Except.ok (ApiResult.success sq) =>
       sq.symbol = some (Json.str "aapl") ∧ sq.currency = "USD"
     | _ => False) ∧
    upperStr "aapl" ≠ "aapl" := by
  constructor
  · exact ⟨rfl, rfl⟩
  · decide

/-- C3 (amended).  Every successful `getQuote` of every built-in adapter
populates `currency` with a constant (`"USD"` for AlphaVantage and
Finnhub, `"INR"` for IndianApi).  The symbol is upper-cased from the
*request* only by Finnhub; AlphaVantage and IndianApi return the
provider-reported symbol (`Global Quote`.`01. symbol` / `tickerId`)
verbatim, whatever its casing. -/
theorem getQuote_currency_constant_symbol_provenance :
    (∀ (data : Json) (sq : StockQuote),
       AlphaVantageAdapter.getQuote (Except.ok data) =
           Except.ok (ApiResult.success sq) →
       sq.currency = "USD" ∧
       ∃ gq, jsGetField data "Global Quote" = some gq ∧
         sq.symbol = jsGetField gq "01. symbol") ∧
    (∀ (reqSym : String) (status : Nat) (data : Json) (sq : StockQuote),
       IndianApiAdapter.getQuote reqSym (Except.ok (status, data)) =
           Except.ok (ApiResult.success sq) →
       sq.currency = "INR" ∧ sq.symbol = jsGetField data "tickerId") ∧
    (∀ (reqSym : String) (status : Nat) (data : Json) (sq : StockQuote),
       FinnhubAdapter.getQuote reqSym (Except.ok (status, data)) =
           Except.ok (ApiResult.success sq) →
       sq.currency = "USD" ∧ sq.symbol = some (Json.str (upperStr reqSym))) := by
  refine ⟨?_, ?_, ?_⟩
  · intro data sq h
    unfold AlphaVantageAdapter.getQuote at h
    dsimp only at h
    by_cases h1 : jsTruthy (jsGetField data "Error Message")
    · rw [if_pos h1] at h; exact Except.noConfusion h
    · rw [if_neg h1] at h
      by_cases h2 : jsTruthy (jsGetField data "Note")
      · rw [if_pos h2] at h; exact Except.noConfusion h
      · rw [if_neg h2] at h
        cases hgq : jsGetField data "Global Quote" with
        | none => rw [hgq] at h; exact Except.noConfusion h
        | some quote =>
          rw [hgq] at h
          dsimp only at h
          by_cases ht : jsTruthy (some quote)
          · rw [if_pos ht] at h
            cases hpct : jsGetField quote "10. change percent" with
            | none =>
              rw [hpct] at h
              injection h with hv
              exact ApiResult.noConfusion hv
            | some v =>
              rw [hpct] at h
              cases v with
              | str pct =>
                injection h with hv
                injection hv with hv2
                refine ⟨by rw [← hv2], quote, rfl, by rw [← hv2]⟩
              | null => injection h with hv; exact ApiResult.noConfusion hv
              | bool b => injection h with hv; exact ApiResult.noConfusion hv
              | num q => injection h with hv; exact ApiResult.noConfusion hv
              | nan => injection h with hv; exact ApiResult.noConfusion hv
              | arr xs => injection h with hv; exact ApiResult.noConfusion hv
              | obj kvs => injection h with hv; exact ApiResult.noConfusion hv
          · rw [if_neg ht] at h
            exact Except.noConfusion h
  · intro reqSym status data sq h
    unfold IndianApiAdapter.getQuote at h
    dsimp only at h
    by_cases h1 : ¬ (200 ≤ status ∧ status < 300)
    · rw [if_pos h1] at h
      by_cases h1b : status = 404
      · rw [if_pos h1b] at h; exact Except.noConfusion h
      · rw [if_neg h1b] at h; exact Except.noConfusion h
    · rw [if_neg h1] at h
      by_cases h2 : ¬ jsTruthy (jsGetField data "tickerId")
      · rw [if_pos h2] at h; exact Except.noConfusion h
      · rw [if_neg h2] at h
        by_cases h3 : ¬ jsTruthy (if jsTruthy (jsOptGet (jsGetField data "currentPrice") "NSE")
            then jsOptGet (jsGetField data "currentPrice") "NSE"
            else jsOptGet (jsGetField data "currentPrice") "BSE")
        · rw [if_pos h3] at h; exact Except.noConfusion h
        · rw [if_neg h3] at h
          injection h with hv
          injection hv with hv2
          refine ⟨by rw [← hv2], ?_⟩
          rw [← hv2]
          simp only [if_pos (of_not_not (by simpa using h2))]
  · intro reqSym status data sq h
    unfold FinnhubAdapter.getQuote at h
    dsimp only at h
    by_cases h1 : ¬ (200 ≤ status ∧ status < 300)
    · rw [if_pos h1] at h; exact Except.noConfusion h
    · rw [if_neg h1] at h
      by_cases h2 : jsTruthy (jsGetField data "error")
      · rw [if_pos h2] at h; exact Except.noConfusion h
      · rw [if_neg h2] at h
        by_cases h3 : FinnhubAdapter.strictEqZero (jsGetField data "c") ∧
            FinnhubAdapter.strictEqZero (jsGetField data "h") ∧
            FinnhubAdapter.strictEqZero (jsGetField data "l")
        · rw [if_pos h3] at h; exact Except.noConfusion h
        · rw [if_neg h3] at h
          injection h with hv
          injection hv with hv2
          exact ⟨by rw [← hv2], by rw [← hv2]⟩

/-- C3 witness: the Finnhub conjunct of the amended theorem applied at a
concrete successful response for the lower-case request symbol
`"aapl"`. -/
theorem getQuote_currency_constant_symbol_provenance_witness :
    ({ symbol := some (Json.str "AAPL"), price := some (Json.num 10), change := none,
       changePercent := none, volume := none, high := some (Json.num 1),
       low := some (Json.num 1), openP := none, previousClose := none,
       timestampArg := some Json.nan, currency := "USD", exchange := none }
      : StockQuote).currency = "USD" ∧
    ({ symbol := some (Json.str "AAPL"), price := some (Json.num 10), change := none,
       changePercent := none, volume := none, high := some (Json.num 1),
       low := some (Json.num 1), openP := none, previousClose := none,
       timestampArg := some Json.nan, currency := "USD", exchange := none }
      : StockQuote).symbol = some (Json.str (upperStr "aapl")) :=
  getQuote_currency_constant_symbol_provenance.2.2 "aapl" 200
    (Json.obj [("c", Json.num 10), ("h", Json.num 1), ("l", Json.num 1)])
    { symbol := some (Json.str "AAPL"), price := some (Json.num 10), change := none,
      changePercent := none, volume := none, high := some (Json.num 1),
      low := some (Json.num 1), openP := none, previousClose := none,
      timestampArg := some Json.nan, currency := "USD", exchange := none }
    rfl

/-- C4.  For every interval absent from an adapter's interval table, the
adapter's `getHistoricalData` returns `{success:false}` with the message
`"Unsupported interval: <interval>"`, and no network call is issued: the
result is the same whatever the fetch outcome would have been (the guard
runs before the URL is built). -/
theorem getHistoricalData_unsupported_interval_fails_locally :
    ∀ (dateParse : String → Option ℚ) (req : HistRequest)
      (f₁ f₂ : Except String Json) (g₁ g₂ : Except String (Nat × Json)),
      (AlphaVantageAdapter.functionMap.lookup req.interval = none →
         AlphaVantageAdapter.getHistoricalData dateParse req f₁ =
           Except.ok (ApiResult.failure ("Unsupported interval: " ++ req.interval)) ∧
         AlphaVantageAdapter.getHistoricalData dateParse req f₁ =
           AlphaVantageAdapter.getHistoricalData dateParse req f₂) ∧
      (FinnhubAdapter.resolutionMap.lookup req.interval = none →
         FinnhubAdapter.getHistoricalData req g₁ =
           Except.ok (ApiResult.failure ("Unsupported interval: " ++ req.interval)) ∧
         FinnhubAdapter.getHistoricalData req g₁ =
           FinnhubAdapter.getHistoricalData req g₂) ∧
      (IndianApiAdapter.intervalMap.lookup req.interval = none →
         IndianApiAdapter.getHistoricalData req g₁ =
           Except.ok (ApiResult.failure ("Unsupported interval: " ++ req.interval)) ∧
         IndianApiAdapter.getHistoricalData req g₁ =
           IndianApiAdapter.getHistoricalData req g₂) := by
  intro dateParse req f₁ f₂ g₁ g₂
  refine ⟨?_, ?_, ?_⟩
  · intro hl
    unfold AlphaVantageAdapter.getHistoricalData
    rw [hl]
    exact ⟨rfl, rfl⟩
  · intro hl
    unfold FinnhubAdapter.getHistoricalData
    rw [hl]
    exact ⟨rfl, rfl⟩
  · intro hl
    unfold IndianApiAdapter.getHistoricalData
    rw [hl]
    exact ⟨rfl, rfl⟩

/-- C4 witness: the interval `"2day"` is in none of the three tables; each
adapter fails locally with the descriptive message, identically for two
different fetch outcomes. -/
theorem getHistoricalData_unsupported_interval_fails_locally_witness :
    AlphaVantageAdapter.getHistoricalData (fun _ => none)
        { symbol := "AAPL", interval := "2day", fromTime := none, toTime := none, limit := none }
        (Except.error "network down") =
      Except.ok (ApiResult.failure ("Unsupported interval: " ++ "2day")) ∧
    FinnhubAdapter.getHistoricalData
        { symbol := "AAPL", interval := "2day", fromTime := none, toTime := none, limit := none }
        (Except.ok (200, Json.obj [("s", Json.str "ok")])) =
      Except.ok (ApiResult.failure ("Unsupported interval: " ++ "2day")) ∧
    IndianApiAdapter.getHistoricalData
        { symbol := "AAPL", interval := "2day", fromTime := none, toTime := none, limit := none }
        (Except.ok (200, Json.obj [("success", Json.bool true)])) =
      Except.ok (ApiResult.failure ("Unsupported interval: " ++ "2day")) := by
  have h := getHistoricalData_unsupported_interval_fails_locally (fun _ => none)
    { symbol := "AAPL", interval := "2day", fromTime := none, toTime := none, limit := none }
    (Except.error "network down") (Except.error "network down")
    (Except.ok (200, Json.obj [("s", Json.str "ok")]))
    (Except.ok (200, Json.obj [("success", Json.bool true)]))
  refine ⟨(h.1 rfl).1, (h.2.1 rfl).1, ?_⟩
  have h2 := getHistoricalData_unsupported_interval_fails_locally (fun _ => none)
    { symbol := "AAPL", interval := "2day", fromTime := none, toTime := none, limit := none }
    (Except.error "network down") (Except.error "network down")
    (Except.ok (200, Json.obj [("success", Json.bool true)]))
    (Except.ok (200, Json.obj [("success", Json.bool true)]))
  exact (h2.2.2 rfl).1

/-- C9.  For every `Date.parse` oracle, `detectStructure` on the sample
response `{symbol:"AAPL", price:187.32, timestamp:"2024-01-05T00:00:00Z"}`
with expected kind `quote` produces suggested mappings that cover both
`symbol` and `price` (and `timestamp`), each chosen from a best candidate
with confidence 0.9 ≥ 0.5, and reports overall confidence `high` (hence
within {medium, high}). -/
theorem detectStructure_quote_sample_covers_essentials :
    ∀ (op : String → Bool),
      ((ApiStructureDetector.detectStructure op sampleQuoteResponse
          ApiStructureDetector.ApiKind.quote).suggestedMappings.map
        (fun m => (m.targetField, m.sourceField))) =
        [("symbol", "symbol"), ("price", "price"), ("timestamp", "timestamp")] ∧
      ((ApiStructureDetector.bestMatchFor
          (ApiStructureDetector.extractFields op sampleQuoteResponse) [] "symbol").map
        (fun cf => cf.1.confidence)) = some (Rat.divInt 9 10) ∧
      ((ApiStructureDetector.bestMatchFor
          (ApiStructureDetector.extractFields op sampleQuoteResponse) ["symbol"] "price").map
        (fun cf => cf.1.confidence)) = some (Rat.divInt 9 10) ∧
      Rat.divInt 1 2 ≤ Rat.divInt 9 10 ∧
      ((ApiStructureDetector.detectStructure op sampleQuoteResponse
          ApiStructureDetector.ApiKind.quote).confidence = ApiStructureDetector.Confidence.medium ∨
       (ApiStructureDetector.detectStructure op sampleQuoteResponse
          ApiStructureDetector.ApiKind.quote).confidence = ApiStructureDetector.Confidence.high) := by
  intro op
  have hf : ApiStructureDetector.extractFields op sampleQuoteResponse =
      ApiStructureDetector.sampleFields
        (ApiStructureDetector.getValueType op (Json.str "AAPL")) := rfl
  simp only [ApiStructureDetector.detectStructure, hf]
  generalize ApiStructureDetector.getValueType op (Json.str "AAPL") = t1
  cases t1 <;> exact ⟨rfl, rfl, rfl, by decide, Or.inr rfl⟩

/-- Looking up a key just removed by `eraseAssoc` gives nothing. -/
theorem lookup_eraseAssoc {α : Type} (l : List (String × α)) (k : String) :
    (eraseAssoc l k).lookup k = none := by
  induction l with
  | nil => rfl
  | cons kv rest ih =>
    by_cases h : kv.1 == k
    · simpa [eraseAssoc, List.filter_cons, h] using ih
    · have h' : kv.1 ≠ k := by simpa using h
      have hk : (k == kv.1) = false := by simpa using (Ne.symm h')
      have hb : (!(kv.1 == k)) = true := by simpa using h
      simp only [eraseAssoc, List.filter_cons, hb, if_pos]
      rw [List.lookup, hk]
      simpa [eraseAssoc] using ih

/-- Lookup after the in-place overwrite performed by `setAssoc` on an
existing key. -/
theorem lookup_map_overwrite {α : Type} (l : List (String × α)) (k : String) (v : α)
    (hs : (l.lookup k).isSome) :
    (l.map (fun kv => if kv.1 == k then (k, v) else kv)).lookup k = some v := by
  induction l with
  | nil => simp [List.lookup] at hs
  | cons kv rest ih =>
    by_cases h : kv.1 == k
    · rw [List.map_cons, if_pos h]
      simp [List.lookup]
    · have h' : kv.1 ≠ k := by simpa using h
      have hk : (k == kv.1) = false := by simpa using (Ne.symm h')
      rw [List.map_cons, if_neg h]
      rw [List.lookup, hk]
      rw [List.lookup, hk] at hs
      exact ih hs

/-- Looking up the key just written by `setAssoc` gives the new value. -/
theorem lookup_setAssoc_self {α : Type} (l : List (String × α)) (k : String) (v : α) :
    (setAssoc l k v).lookup k = some v := by
  unfold setAssoc
  by_cases hs : (l.lookup k).isSome
  · rw [if_pos hs]
    exact lookup_map_overwrite l k v hs
  · rw [if_neg hs]
    rw [lookup_append]
    have hnone : l.lookup k = none := by
      cases hx : l.lookup k with
      | none => rfl
      | some v0 => rw [hx] at hs; simp at hs
    rw [hnone]
    simp [List.lookup]

/-- C7 (code bug).  `disconnect` does cancel the pending timer and clear
the attempt counter — but an automatic reconnect can still fire after it
returns.  Failing schedule (all steps enabled in the model, which mirrors
the browser's asynchronous event delivery):

1. `connect(p)` creates socket 0;
2. a second `connect(p)` client-closes socket 0 and creates socket 1;
3. socket 0's pending `close(1000)` event now runs its `onclose`, whose
   unconditional `connections.delete(p)` drops the *new* socket-1 entry;
4. `disconnect(p)` finds no connection, so socket 1 is never closed
   (timer and counter are cleared — the first part of the theorem);
5. orphaned socket 1 closes abnormally (code 1006): `onclose` schedules a
   reconnect;
6. the timer fires and calls `connect` — a third `connect` invocation,
   after `disconnect` returned and with no explicit connect call
   (the continuation contains no `Act.connectA`).

The spec requires that no reconnect for the provider fire after
`disconnect` returns. -/
theorem disconnect_then_automatic_reconnect_trace :
    (WebSocketManager.runActs WebSocketManager.initState
        [WebSocketManager.Act.connectA "finnhub"
           { reconnectInterval := some 100, maxReconnectAttempts := some 5 },
         WebSocketManager.Act.connectA "finnhub"
           { reconnectInterval := some 100, maxReconnectAttempts := some 5 },
         WebSocketManager.Act.closeEv 0 1000,
         WebSocketManager.Act.disconnectA "finnhub"]).map
      (fun s => (s.reconnectTimers.lookup "finnhub",
                 s.reconnectAttempts.lookup "finnhub",
                 s.connectCalls.length)) = some (none, none, 2) ∧
    (WebSocketManager.runActs WebSocketManager.initState
        [WebSocketManager.Act.connectA "finnhub"
           { reconnectInterval := some 100, maxReconnectAttempts := some 5 },
         WebSocketManager.Act.connectA "finnhub"
           { reconnectInterval := some 100, maxReconnectAttempts := some 5 },
         WebSocketManager.Act.closeEv 0 1000,
         WebSocketManager.Act.disconnectA "finnhub",
         WebSocketManager.Act.closeEv 1 1006,
         WebSocketManager.Act.timerEv "finnhub"]).map
      (fun s => s.connectCalls.length) = some 3 :=
  ⟨rfl, rfl⟩

/-- C8.  Whenever `attemptReconnect` runs with current attempt count `a`:
below the cap it schedules a timer with delay
`reconnectInterval × 2^a` (capturing `a` for the counter bump), and at or
above the cap it schedules nothing and leaves the state untouched.
Concretely (base 100): the first abnormal close schedules delay
`100 = 100·2⁰`, and a second abnormal close after the (failed) reconnect
attempt schedules delay `200 = 100·2¹`. -/
theorem attemptReconnect_backoff_and_cap :
    (∀ (p : String) (cfg : WebSocketManager.WSConfig) (s : WebSocketManager.MState) (a : Nat),
       (s.reconnectAttempts.lookup p).getD 0 = a →
       (a < WebSocketManager.orFalsy cfg.maxReconnectAttempts 5 →
          (WebSocketManager.attemptReconnect p cfg s).reconnectTimers.lookup p =
            some { delay := WebSocketManager.orFalsy cfg.reconnectInterval 5000 * 2 ^ a,
                   attemptsAtSchedule := a, cfg := cfg,
                   state := WebSocketManager.TimerState.pending }) ∧
       (WebSocketManager.orFalsy cfg.maxReconnectAttempts 5 ≤ a →
          WebSocketManager.attemptReconnect p cfg s = s)) ∧
    (WebSocketManager.runActs WebSocketManager.initState
        [WebSocketManager.Act.connectA "finnhub"
           { reconnectInterval := some 100, maxReconnectAttempts := some 5 },
         WebSocketManager.Act.openEv 0,
         WebSocketManager.Act.closeEv 0 1006]).map
      (fun s => (s.reconnectTimers.lookup "finnhub").map
        (fun t => (t.delay, t.attemptsAtSchedule, t.state))) =
      some (some (100, 0, WebSocketManager.TimerState.pending)) ∧
    (WebSocketManager.runActs WebSocketManager.initState
        [WebSocketManager.Act.connectA "finnhub"
           { reconnectInterval := some 100, maxReconnectAttempts := some 5 },
         WebSocketManager.Act.openEv 0,
         WebSocketManager.Act.closeEv 0 1006,
         WebSocketManager.Act.timerEv "finnhub",
         WebSocketManager.Act.closeEv 1 1006]).map
      (fun s => (s.reconnectTimers.lookup "finnhub").map
        (fun t => (t.delay, t.attemptsAtSchedule, t.state))) =
      some (some (200, 1, WebSocketManager.TimerState.pending)) := by
  refine ⟨?_, rfl, rfl⟩
  intro p cfg s a ha
  unfold WebSocketManager.attemptReconnect
  rw [ha]
  constructor
  · intro hlt
    rw [if_neg (by omega)]
    exact lookup_setAssoc_self _ _ _
  · intro hge
    rw [if_pos (by omega)]

/-- C8 witness: the general conjunct applied at concrete states — a fresh
state schedules delay `100·2⁰` for attempt count 0, and a state already
at the cap of 5 attempts is left unchanged. -/
theorem attemptReconnect_backoff_and_cap_witness :
    (WebSocketManager.attemptReconnect "finnhub"
        { reconnectInterval := some 100, maxReconnectAttempts := some 5 }
        WebSocketManager.initState).reconnectTimers.lookup "finnhub" =
      some { delay := WebSocketManager.orFalsy (some 100) 5000 * 2 ^ 0,
             attemptsAtSchedule := 0,
             cfg := { reconnectInterval := some 100, maxReconnectAttempts := some 5 },
             state := WebSocketManager.TimerState.pending } ∧
    WebSocketManager.attemptReconnect "finnhub"
        { reconnectInterval := some 100, maxReconnectAttempts := some 5 }
        { WebSocketManager.initState with reconnectAttempts := [("finnhub", 5)] } =
      { WebSocketManager.initState with reconnectAttempts := [("finnhub", 5)] } :=
  ⟨(attemptReconnect_backoff_and_cap.1 "finnhub"
      { reconnectInterval := some 100, maxReconnectAttempts := some 5 }
      WebSocketManager.initState 0 rfl).1 (by decide),
   (attemptReconnect_backoff_and_cap.1 "finnhub"
      { reconnectInterval := some 100, maxReconnectAttempts := some 5 }
      { WebSocketManager.initState with reconnectAttempts := [("finnhub", 5)] } 5 rfl).2
     (by decide)⟩

/-- A `none` lookup means no entry carries the key. -/
theorem lookup_none_keys {α : Type} (l : List (String × α)) (k : String)
    (h : List.lookup k l = none) : ∀ kv ∈ l, (kv.1 == k) = false := by
  induction l with
  | nil => intro kv hkv; simp at hkv
  | cons kv0 rest ih =>
    intro kv hkv
    by_cases hk : k == kv0.1
    · simp [List.lookup, hk] at h
    · have hk' : (k == kv0.1) = false := by simpa using hk
      rw [List.lookup, hk'] at h
      rcases List.mem_cons.mp hkv with rfl | hmem
      · have hne : k ≠ kv.1 := by simpa using hk
        simpa using (Ne.symm hne)
      · exact ih h kv hmem

/-- Writing the same value twice with `setAssoc` is the same as writing it
once. -/
theorem setAssoc_idem {α : Type} (l : List (String × α)) (k : String) (v : α) :
    setAssoc (setAssoc l k v) k v = setAssoc l k v := by
  unfold setAssoc
  by_cases hs : (l.lookup k).isSome
  · rw [if_pos hs]
    have h2 : ((l.map (fun kv => if kv.1 == k then (k, v) else kv)).lookup k).isSome := by
      rw [lookup_map_overwrite l k v hs]; rfl
    rw [if_pos h2, List.map_map]
    refine List.map_congr_left ?_
    intro kv _
    by_cases hk : kv.1 == k
    · simp [Function.comp, hk]
    · simp [Function.comp, hk]
  · rw [if_neg hs]
    have hnone : l.lookup k = none := by
      cases hx : l.lookup k with
      | none => rfl
      | some v0 => rw [hx] at hs; simp at hs
    have h2 : ((l ++ [(k, v)]).lookup k).isSome := by
      rw [lookup_append, hnone]
      simp [List.lookup]
    rw [if_pos h2, List.map_append]
    have hmap : l.map (fun kv => if kv.1 == k then (k, v) else kv) = l := by
      have := lookup_none_keys l k hnone
      calc l.map (fun kv => if kv.1 == k then (k, v) else kv)
          = l.map id := List.map_congr_left (by
            intro kv hkv
            simp [this kv hkv])
        _ = l := List.map_id l
    rw [hmap]
    simp

/-- C10.  `addHandler` stores handlers in a set: registering the same
handler twice is a no-op, and the fan-out of one inbound message invokes
that handler exactly once. -/
theorem addHandler_idempotent_single_invocation :
    ∀ (p : String) (h : Nat) (s : WebSocketManager.MState),
      WebSocketManager.HandlersWf s →
      WebSocketManager.addHandler p h (WebSocketManager.addHandler p h s) =
        WebSocketManager.addHandler p h s ∧
      (WebSocketManager.handleMessage p (WebSocketManager.addHandler p h s)).count h = 1 := by
  intro p h s hwf
  set hs := (s.handlers.lookup p).getD [] with hhs
  set hs2 := if hs.contains h then hs else hs ++ [h] with hhs2
  have hcont2 : hs2.contains h = true := by
    by_cases hc : hs.contains h
    · rw [hhs2, if_pos hc]; exact hc
    · rw [hhs2, if_neg hc]
      have : h ∈ hs ++ [h] := by simp
      simp

  have hlook2 : ((WebSocketManager.addHandler p h s).handlers.lookup p).getD [] = hs2 := by
    unfold WebSocketManager.addHandler
    rw [lookup_setAssoc_self]
    rfl
  constructor
  · show WebSocketManager.addHandler p h (WebSocketManager.addHandler p h s) =
      WebSocketManager.addHandler p h s
    unfold WebSocketManager.addHandler
    rw [lookup_setAssoc_self]
    simp only [Option.getD_some]
    rw [show ((if hs.contains h then hs else hs ++ [h]).contains h) = true from hcont2]
    simp only [if_pos]
    rw [setAssoc_idem]
  · unfold WebSocketManager.handleMessage
    rw [hlook2]
    by_cases hc : hs.contains h
    · have hmem : h ∈ hs := by simpa using hc
      have hnodup : hs.Nodup := hwf p
      rw [hhs2, if_pos hc]
      exact List.count_eq_one_of_mem hnodup hmem
    · have hnmem : h ∉ hs := by simpa using hc
      rw [hhs2, if_neg hc]
      rw [List.count_append]
      rw [List.count_eq_zero.mpr hnmem]
      simp

/-- C10 witness: the theorem applied at the empty manager state with a
concrete handler. -/
theorem addHandler_idempotent_single_invocation_witness :
    WebSocketManager.addHandler "finnhub" 7
        (WebSocketManager.addHandler "finnhub" 7 WebSocketManager.initState) =
      WebSocketManager.addHandler "finnhub" 7 WebSocketManager.initState ∧
    (WebSocketManager.handleMessage "finnhub"
        (WebSocketManager.addHandler "finnhub" 7 WebSocketManager.initState)).count 7 = 1 :=
  addHandler_idempotent_single_invocation "finnhub" 7 WebSocketManager.initState
    (fun _ => List.nodup_nil)
